import Mathlib

/-!
Verification development for the AI orchestration layer of the History-AI
backend (gemini_client.py, response_parser.py, ai_service.py and the
prompt/validator utilities).  Python strings are modelled as lists of
characters, Python exceptions as an explicit error type, and the external
generative-model endpoint as an oracle parameter.  JSON decoding
(the standard-library json.loads) is modelled by an executable
recursive-descent decoder over the JSON grammar; JSON numbers are modelled
as exact scaled decimals (an integer numerator and a power-of-ten
denominator), abstracting the floating-point representation.
-/

/-- Strings are modelled as lists of Unicode characters. -/
abbrev Str := List Char

/-- Convert a Lean string literal to the character-list model. -/
def strL (s : String) : Str :=
  s.toList

/-- Backtick character, written numerically. -/
def btick : Char := Char.ofNat 96

/-- Opening curly brace character. -/
def lcurl : Char := Char.ofNat 123

/-- Closing curly brace character. -/
def rcurl : Char := Char.ofNat 125

/-- Double-quote character. -/
def dquote : Char := Char.ofNat 34

/-- Backslash character. -/
def bslash : Char := Char.ofNat 92

/-- The whitespace characters skipped by the JSON decoder (json.loads). -/
def jWsB (c : Char) : Bool :=
  c = ' ' || c = '\t' || c = '\n' || c = '\r'

/-- The ASCII whitespace characters stripped by Python str.strip(). -/
def pWsB (c : Char) : Bool :=
  jWsB c || c = '\x0b' || c = '\x0c'

/-- Remove leading characters satisfying p (one side of str.strip()). -/
def lstripBy (p : Char → Bool) (l : Str) : Str :=
  l.dropWhile p

/-- Remove trailing characters satisfying p (one side of str.strip()). -/
def rstripBy (p : Char → Bool) (l : Str) : Str :=
  (l.reverse.dropWhile p).reverse

/-- Remove leading and trailing characters satisfying p. -/
def stripBy (p : Char → Bool) (l : Str) : Str :=
  rstripBy p (lstripBy p l)

/-- Python str.strip() with no arguments (whitespace on both ends). -/
def pystrip (l : Str) : Str :=
  stripBy pWsB l

/-- Strip of the whitespace characters recognized by the JSON grammar. -/
def jstrip (l : Str) : Str :=
  stripBy jWsB l

/-- Decoded JSON values.  Numbers are exact scaled decimals: the value of
num n d is n / d where d is a positive power of ten. -/
inductive Json where
  | null : Json
  | bool (b : Bool) : Json
  | num (n : Int) (d : Nat) : Json
  | str (s : Str) : Json
  | arr (elems : List Json) : Json
  | obj (members : List (Str × Json)) : Json

/-- Last-wins lookup, matching the dict produced by json.loads where a
duplicated key keeps its last occurrence. -/
def lookupLast (ms : List (Str × Json)) (k : Str) : Option Json :=
  match ms with
  | [] => none
  | (k', v) :: rest =>
    match lookupLast rest k with
    | some r => some r
    | none => if k' = k then some v else none

/-- Dictionary read access (dict.get): a key lookup on an object, none on
any other value. -/
def jGet (j : Json) (k : Str) : Option Json :=
  match j with
  | .obj ms => lookupLast ms k
  | _ => none

/-- Decimal digit test (the scalar values of 0 through 9). -/
def digitB (c : Char) : Bool :=
  48 ≤ c.toNat && c.toNat ≤ 57

/-- Integer part of a JSON number token: 0, or a nonzero digit followed by
digits (the regex alternative 0|[1-9][0-9]*). -/
def intTok (l : Str) : Str :=
  match l with
  | [] => []
  | c :: r => if c = '0' then [c] else if digitB c then c :: r.takeWhile digitB else []

/-- Fractional part of a JSON number token: a dot followed by at least one
digit, or empty. -/
def fracTok (l : Str) : Str :=
  match l with
  | [] => []
  | c :: r =>
    if c = '.' then
      (if (r.takeWhile digitB).isEmpty then [] else c :: r.takeWhile digitB)
    else []

/-- Exponent part of a JSON number token: e or E, an optional sign, and at
least one digit, or empty. -/
def expTok : Str → Str
  | [] => []
  | [_] => []
  | c :: s :: r2 =>
    if c = 'e' ∨ c = 'E' then
      if s = '+' ∨ s = '-' then
        (if (r2.takeWhile digitB).isEmpty then [] else c :: s :: r2.takeWhile digitB)
      else
        (if ((s :: r2).takeWhile digitB).isEmpty then [] else c :: (s :: r2).takeWhile digitB)
    else []

/-- Unsigned JSON number token starting at the head of the input, empty if
none matches. -/
def posTok (l : Str) : Str :=
  let i := intTok l
  if i.isEmpty then []
  else
    let r1 := l.drop i.length
    let f := fracTok r1
    let r2 := r1.drop f.length
    i ++ f ++ expTok r2

/-- JSON number token (with optional leading minus) starting at the head of
the input, empty if none matches. -/
def numToken (l : Str) : Str :=
  match l with
  | [] => []
  | c :: r =>
    if c = '-' then
      (if (posTok r).isEmpty then [] else c :: posTok r)
    else posTok l

/-- Numeric value of a digit string. -/
def digitsToNat (ds : Str) : Nat :=
  ds.foldl (fun a c => 10 * a + (c.toNat - 48)) 0

/-- Value of the exponent part of a number token (empty means 0). -/
def expVal (e : Str) : Int :=
  match e with
  | [] => 0
  | _ :: r =>
    match r with
    | [] => 0
    | s :: r2 =>
      if s = '-' then -(digitsToNat r2 : Int)
      else if s = '+' then (digitsToNat r2 : Int)
      else (digitsToNat r : Int)

/-- Value of a whole number token as an exact scaled decimal. -/
def numVal (tok : Str) : Int × Nat :=
  let (sgn, t) : Int × Str :=
    match tok with
    | c :: r => if c = '-' then (-1, r) else (1, tok)
    | [] => (1, [])
  let ip := t.takeWhile digitB
  let rest := t.drop ip.length
  let fp : Str :=
    match rest with
    | c :: r => if c = '.' then r.takeWhile digitB else []
    | [] => []
  let rest2 := rest.drop (if fp.isEmpty then 0 else fp.length + 1)
  let e : Int := expVal (if rest2.isEmpty then [] else rest2) - (fp.length : Int)
  let m : Int := sgn * ((digitsToNat ip * 10 ^ fp.length + digitsToNat fp : Nat) : Int)
  if 0 ≤ e then (m * 10 ^ e.toNat, 1) else (m, 10 ^ (-e).toNat)

/-- Value of a hexadecimal digit, if any. -/
def hexVal (c : Char) : Option Nat :=
  if 48 ≤ c.toNat ∧ c.toNat ≤ 57 then some (c.toNat - 48)
  else if 97 ≤ c.toNat ∧ c.toNat ≤ 102 then some (c.toNat - 87)
  else if 65 ≤ c.toNat ∧ c.toNat ≤ 70 then some (c.toNat - 55)
  else none

/-- Decode one escape sequence of a JSON string; c is the character after
the backslash and r the remaining input.  Unicode escapes are decoded to a
single scalar value (surrogate pairs are not recombined). -/
def escChar (c : Char) (r : Str) : Option (Char × Str) :=
  if c = dquote then some (dquote, r)
  else if c = bslash then some (bslash, r)
  else if c = '/' then some ('/', r)
  else if c = 'b' then some ('\x08', r)
  else if c = 'f' then some ('\x0c', r)
  else if c = 'n' then some ('\n', r)
  else if c = 'r' then some ('\r', r)
  else if c = 't' then some ('\t', r)
  else if c = 'u' then
    match r with
    | h1 :: h2 :: h3 :: h4 :: r' =>
      match hexVal h1, hexVal h2, hexVal h3, hexVal h4 with
      | some a, some b, some cc, some d => some (Char.ofNat (((a * 16 + b) * 16 + cc) * 16 + d), r')
      | _, _, _, _ => none
    | _ => none
  else none

/-- Skip JSON whitespace. -/
def skipWs (l : Str) : Str :=
  l.dropWhile jWsB

mutual

/-- Body of a JSON string after the opening quote: decoded characters plus
the input remaining after the closing quote.  Raw control characters are
rejected, as in the strict json.loads default. -/
def parseStr : Nat → Str → Option (Str × Str)
  | 0, _ => none
  | fu+1, l =>
    match l with
    | [] => none
    | c :: r =>
      if c = dquote then some ([], r)
      else if c = bslash then
        match r with
        | [] => none
        | e :: r1 =>
          match escChar e r1 with
          | none => none
          | some (ch, r2) =>
            match parseStr fu r2 with
            | none => none
            | some (s, rr) => some (ch :: s, rr)
      else if c.toNat < 32 then none
      else
        match parseStr fu r with
        | none => none
        | some (s, rr) => some (c :: s, rr)

/-- Comma-separated array elements up to and including the closing
bracket. -/
def parseItems : Nat → Str → Option (List Json × Str)
  | 0, _ => none
  | fu+1, l =>
    match parseValue fu l with
    | none => none
    | some (v, r1) =>
      match skipWs r1 with
      | [] => none
      | c :: r2 =>
        if c = ',' then
          match parseItems fu (skipWs r2) with
          | none => none
          | some (vs, rr) => some (v :: vs, rr)
        else if c = ']' then some ([v], r2)
        else none

/-- Comma-separated object members up to and including the closing
brace. -/
def parseMembers : Nat → Str → Option (List (Str × Json) × Str)
  | 0, _ => none
  | fu+1, l =>
    match l with
    | [] => none
    | c :: r =>
      if c = dquote then
        match parseStr fu r with
        | none => none
        | some (k, r1) =>
          match skipWs r1 with
          | [] => none
          | c2 :: r2 =>
            if c2 = ':' then
              match parseValue fu (skipWs r2) with
              | none => none
              | some (v, r3) =>
                match skipWs r3 with
                | [] => none
                | c3 :: r4 =>
                  if c3 = ',' then
                    match parseMembers fu (skipWs r4) with
                    | none => none
                    | some (ps, rr) => some ((k, v) :: ps, rr)
                  else if c3 = rcurl then some ([(k, v)], r4)
                  else none
            else none
      else none

/-- One JSON value starting at the head of the input, plus the remaining
input.  NaN and Infinity, accepted by json.loads but not representable as
exact decimals, are outside the model. -/
def parseValue : Nat → Str → Option (Json × Str)
  | 0, _ => none
  | fu+1, l =>
    match l with
    | [] => none
    | c :: r =>
      if c = lcurl then
        match skipWs r with
        | [] => none
        | c2 :: r2 =>
          if c2 = rcurl then some (.obj [], r2)
          else
            match parseMembers fu (c2 :: r2) with
            | none => none
            | some (ps, rr) => some (.obj ps, rr)
      else if c = '[' then
        match skipWs r with
        | [] => none
        | c2 :: r2 =>
          if c2 = ']' then some (.arr [], r2)
          else
            match parseItems fu (c2 :: r2) with
            | none => none
            | some (vs, rr) => some (.arr vs, rr)
      else if c = dquote then
        match parseStr fu r with
        | none => none
        | some (s, rr) => some (.str s, rr)
      else if c = 't' then
        if (strL ("rue")).isPrefixOf r then some (.bool true, r.drop 3) else none
      else if c = 'f' then
        if (strL ("alse")).isPrefixOf r then some (.bool false, r.drop 4) else none
      else if c = 'n' then
        if (strL ("ull")).isPrefixOf r then some (.null, r.drop 3) else none
      else
        match numToken l with
        | [] => none
        | tok => some (.num (numVal tok).1 (numVal tok).2, l.drop tok.length)

end

/-- JSON document decoder modelling json.loads: surrounding whitespace is
allowed, and the whole input must be consumed by exactly one value. -/
def jsonParse (l : Str) : Option Json :=
  let u := jstrip l
  match parseValue (2 * u.length + 4) u with
  | some (v, []) => some v
  | _ => none

/-- Fence-stripping transformation of parse_json_response
(response_parser.py lines 28-39): trim, drop an opening code fence
(with or without the json language tag), drop a closing fence, trim. -/
def stripFences (t : Str) : Str :=
  let r0 := pystrip t
  let r1 :=
    if (strL ("```json")).isPrefixOf r0 then r0.drop 7
    else if (strL ("```")).isPrefixOf r0 then r0.drop 3
    else r0
  let r2 := if (strL ("```")).isSuffixOf r1 then r1.take (r1.length - 3) else r1
  pystrip r2

/-- parse_json_response (response_parser.py): strip markdown fences, then
decode as JSON; a decode failure becomes a ResponseParseError whose message
carries the fixed prefix (the json.JSONDecodeError detail text is
abstracted away). -/
def parse_json_response (t : Str) : Except Str Json :=
  match jsonParse (stripFences t) with
  | some j => .ok j
  | none => .error (strL ("Failed to parse Gemini response as JSON"))

/-- Fixed framing of the card-generation prompt up to the title field. -/
def cgF0 : Str := strL ("You are an expert historical content generator.\n\nTITLE: ")

/-- Fixed framing introducing the system-prompt field. -/
def cgF1 : Str := strL ("\n\nSYSTEM PROMPT: ")

/-- Fixed framing introducing the topics field. -/
def cgF2 : Str := strL ("\n\nTOPICS TO COVER: ")

/-- Header of the optional additional-context section. -/
def cgSect : Str := strL ("\n\nADDITIONAL CONTEXT:\n")

/-- Fixed closing framing of the card-generation prompt. -/
def cgF3 : Str := strL ("\n\nReturn only one JSON object with keys title, description, keywords.")

/-- Modelled from the spec: app/utils/prompts.py is imported by
app/utils/__init__.py and exercised by tests/utils/test_prompts.py but is
not under src/.  Per spec section 4.2 the card-generation builder embeds
fixed framing plus the caller fields verbatim and includes an ADDITIONAL
CONTEXT section only when context_text is non-empty; the section markers
are the ones asserted by test_prompts.py. -/
def build_card_generation_prompt (title system_prompt topics_to_cover : Str)
    (context_text : Option Str) : Str :=
  cgF0 ++ title ++ cgF1 ++ system_prompt ++ cgF2 ++ topics_to_cover ++
  (match context_text with
   | some c => if c.isEmpty then [] else cgSect ++ c
   | none => []) ++
  cgF3

/-- Modelled from the spec: the copilot prompt builder of the missing
app/utils/prompts.py always includes a question section and a document
context section, with the markers asserted by test_prompts.py. -/
def build_copilot_prompt (question context : Str) : Str :=
  strL ("You respond strictly from the given document.\n\nQUESTION FROM USER: ") ++ question ++
  strL ("\n\nDOCUMENT CONTEXT:\n") ++ context

/-- Modelled from the spec: the bias-judge prompt builder of the missing
app/utils/prompts.py always includes the content to analyze and requests a
JSON object with bias_score and explanation. -/
def build_bias_judge_prompt (content : Str) : Str :=
  strL ("Judge the neutrality of the text and reply with one JSON object holding bias_score and explanation.\n\nCONTENT TO ANALYZE:\n") ++ content

/-- Modelled from the spec: app/utils/card_validator.py is imported and
tested but not under src/.  Per spec section 4.4 the card validator
requires title present, a non-empty string within a maximum length policy
(200, the bound of the card schema), description present, a string of at
least the minimum length policy (10, the bound of the card schema),
and keywords present, a sequence of strings with at least one element.
First violation found raises CardValidationError; the message texts are
not pinned by any test and are modelled. -/
def validate_card_structure (j : Json) : Except Str Unit :=
  match jGet j (strL ("title")) with
  | some (.str t) =>
    if t.isEmpty then .error (strL ("Invalid card structure: title must be a non-empty string"))
    else if 200 < t.length then .error (strL ("Invalid card structure: title too long"))
    else
      match jGet j (strL ("description")) with
      | some (.str d) =>
        if d.length < 10 then .error (strL ("Invalid card structure: description too short"))
        else
          match jGet j (strL ("keywords")) with
          | some (.arr ks) =>
            if ks.isEmpty then .error (strL ("Invalid card structure: keywords must not be empty"))
            else if ks.all (fun k => match k with | .str _ => true | _ => false) then .ok ()
            else .error (strL ("Invalid card structure: keywords must be strings"))
          | _ => .error (strL ("Invalid card structure: keywords missing or not a list"))
      | _ => .error (strL ("Invalid card structure: description missing or not a string"))
  | _ => .error (strL ("Invalid card structure: title missing or not a string"))

/-- Modelled from the spec: app/utils/bias_validator.py is imported and
tested but not under src/.  Per spec section 4.4 the bias validator
requires bias_score present and numeric and explanation present and a
non-empty string, reporting a missing or badly typed field distinctly
("Invalid bias judge response format", the substring matched by
tests/services/test_ai_service.py) from a numeric score outside the
inclusive range 0..100 ("Bias score out of range", likewise matched by the
tests).  It returns the score and explanation pair. -/
def validate_bias_response (j : Json) : Except Str ((Int × Nat) × Str) :=
  match jGet j (strL ("bias_score")), jGet j (strL ("explanation")) with
  | some (.num n d), some (.str e) =>
    if e.isEmpty then .error (strL ("Invalid bias judge response format"))
    else if n < 0 ∨ 100 * (d : Int) < n then .error (strL ("Bias score out of range"))
    else .ok ((n, d), e)
  | _, _ => .error (strL ("Invalid bias judge response format"))

/-- Python exception kinds relevant to the orchestration layer. -/
inductive PyExc where
  | aiServiceError (msg : Str)
  | responseParseError (msg : Str)
  | cardValidationError (msg : Str)
  | biasValidationError (msg : Str)
  | geminiClientError (msg : Str)
  | otherErr (msg : Str)
deriving DecidableEq

/-- Message text of an exception, as produced by Python str(e). -/
def excMsg : PyExc → Str
  | .aiServiceError m => m
  | .responseParseError m => m
  | .cardValidationError m => m
  | .biasValidationError m => m
  | .geminiClientError m => m
  | .otherErr m => m

/-- Outcome of one generate_content attempt against the upstream model: it
either raises or returns a response whose text may be missing. -/
inductive Attempt where
  | raises (e : PyExc)
  | answers (text : Option Str)
deriving DecidableEq

/-- An attempt fails when generate_content raises or when the returned
text is falsy (absent or empty), per the truthiness test of
gemini_client.py line 76. -/
def attemptFails : Attempt → Bool
  | .raises _ => true
  | .answers none => true
  | .answers (some t) => t.isEmpty

/-- Text of a successful attempt. -/
def attemptText : Attempt → Str
  | .answers (some t) => t
  | _ => []

/-- Underlying cause of a failed attempt: the raised exception, or the
GeminiClientError raised for an empty response (line 80). -/
def causeOf : Attempt → PyExc
  | .raises e => e
  | .answers _ => .geminiClientError (strL ("Empty response from Gemini"))

/-- Observable trace of one call_with_retry run: how many attempts were
made, the durations slept between attempts, the last per-attempt cause,
and the final outcome. -/
structure RetryTrace where
  attempts : Nat
  sleeps : List Nat
  lastError : Option PyExc
  result : Except PyExc Str

/-- Loop of call_with_retry over the remaining attempts; i is the next
0-indexed attempt number, fuel the number of loop iterations left out of
max_retries = 3.  A failed attempt other than the last sleeps
retry_delay * 2 ^ attempt with retry_delay = 1 (lines 89-92); after the
last failed attempt the loop falls through to raise GeminiClientError
wrapping the last cause (lines 94-96). -/
def retryGo (oracle : Nat → Attempt) : Nat → Nat → List Nat → Option PyExc → RetryTrace
  | 0, i, sleeps, lastE =>
    ⟨i, sleeps, lastE,
     .error (.geminiClientError (strL ("Gemini API call failed after 3 attempts: ") ++
       (match lastE with | some e => excMsg e | none => strL ("None"))))⟩
  | fuel+1, i, sleeps, lastE =>
    let a := oracle i
    if attemptFails a then
      (if fuel = 0 then retryGo oracle fuel (i+1) sleeps (some (causeOf a))
       else retryGo oracle fuel (i+1) (sleeps ++ [1 * 2 ^ i]) (some (causeOf a)))
    else ⟨i+1, sleeps, lastE, .ok (attemptText a)⟩

/-- call_with_retry (gemini_client.py lines 42-96) over an oracle giving
the outcome of each upstream attempt. -/
def call_with_retry (oracle : Nat → Attempt) : RetryTrace :=
  retryGo oracle 3 0 [] none

/-- Truthiness of an optional string: Python treats None and the empty
string as falsy. -/
def falsy : Option Str → Bool
  | none => true
  | some s => s.isEmpty

/-- Python x or "" for an optional string. -/
def orEmpty (o : Option Str) : Str :=
  match o with
  | some s => s
  | none => []

/-- Try-block of generate_card (ai_service.py lines 48-63), parameterized
by the gateway call; the natural number counts gateway invocations.
Parse and validation failures surface as their specific exception kinds;
gateway exceptions propagate unchanged. -/
def generate_card_body (call : Str → Except PyExc Str) (title system_prompt topics_to_cover : Str)
    (context_text : Option Str) : Nat × Except PyExc Json :=
  let prompt := build_card_generation_prompt title system_prompt topics_to_cover
    (some (orEmpty context_text))
  match call prompt with
  | .error e => (1, .error e)
  | .ok raw =>
    match parse_json_response raw with
    | .error m => (1, .error (.responseParseError m))
    | .ok j =>
      match validate_card_structure j with
      | .error m => (1, .error (.cardValidationError m))
      | .ok _ => (1, .ok j)

/-- Exception translation of generate_card (lines 64-69): parse and card
validation errors are wrapped as card generation failures, anything else
generically, always into AIServiceError. -/
def handleCard : PyExc → PyExc
  | .responseParseError m => .aiServiceError (strL ("Card generation failed: ") ++ m)
  | .cardValidationError m => .aiServiceError (strL ("Card generation failed: ") ++ m)
  | e => .aiServiceError (strL ("Unexpected error: ") ++ excMsg e)

/-- generate_card (ai_service.py lines 37-69). -/
def generate_card (call : Str → Except PyExc Str) (title system_prompt topics_to_cover : Str)
    (context_text : Option Str) : Nat × Except PyExc Json :=
  match generate_card_body call title system_prompt topics_to_cover context_text with
  | (n, .ok j) => (n, .ok j)
  | (n, .error e) => (n, .error (handleCard e))

/-- Try-block of copilot_answer (ai_service.py lines 75-82): the guard
raises AIServiceError before any gateway call when question or context is
falsy; on success the response is stripped. -/
def copilot_answer_body (call : Str → Except PyExc Str) (question context : Option Str) :
    Nat × Except PyExc Str :=
  if falsy question || falsy context then
    (0, .error (.aiServiceError (strL ("Question and context are required"))))
  else
    match call (build_copilot_prompt (orEmpty question) (orEmpty context)) with
    | .error e => (1, .error e)
    | .ok resp => (1, .ok (pystrip resp))

/-- copilot_answer (ai_service.py lines 71-85): every exception of the try
block, the guard included, is wrapped by the single generic handler. -/
def copilot_answer (call : Str → Except PyExc Str) (question context : Option Str) :
    Nat × Except PyExc Str :=
  match copilot_answer_body call question context with
  | (n, .ok v) => (n, .ok v)
  | (n, .error e) => (n, .error (.aiServiceError (strL ("Failed to generate answer: ") ++ excMsg e)))

/-- Try-block of judge_bias (ai_service.py lines 88-99): the guard raises
AIServiceError before any gateway call when content is falsy or shorter
than 50 characters. -/
def judge_bias_body (call : Str → Except PyExc Str) (content : Option Str) :
    Nat × Except PyExc ((Int × Nat) × Str) :=
  match content with
  | none => (0, .error (.aiServiceError (strL ("Content must be at least 50 characters"))))
  | some s =>
    if s.isEmpty || s.length < 50 then
      (0, .error (.aiServiceError (strL ("Content must be at least 50 characters"))))
    else
      match call (build_bias_judge_prompt s) with
      | .error e => (1, .error e)
      | .ok raw =>
        match parse_json_response raw with
        | .error m => (1, .error (.responseParseError m))
        | .ok j =>
          match validate_bias_response j with
          | .error m => (1, .error (.biasValidationError m))
          | .ok p => (1, .ok p)

/-- Exception translation of judge_bias (lines 101-106): parse and bias
validation errors are wrapped as bias judgment failures, anything else,
the length guard included, generically. -/
def handleJudge : PyExc → PyExc
  | .responseParseError m => .aiServiceError (strL ("Bias judgment failed: ") ++ m)
  | .biasValidationError m => .aiServiceError (strL ("Bias judgment failed: ") ++ m)
  | e => .aiServiceError (strL ("Unexpected error: ") ++ excMsg e)

/-- judge_bias (ai_service.py lines 87-106). -/
def judge_bias (call : Str → Except PyExc Str) (content : Option Str) :
    Nat × Except PyExc ((Int × Nat) × Str) :=
  match judge_bias_body call content with
  | (n, .ok p) => (n, .ok p)
  | (n, .error e) => (n, .error (handleJudge e))

/-- Executable substring test: does s occur contiguously inside l. -/
def containsB (l s : Str) : Bool :=
  s.isPrefixOf l ||
  (match l with
   | [] => false
   | _ :: t => containsB t s)

/-- Helper: a failed truthiness test characterizes a successful attempt. -/
theorem attemptFails_eq_false {a : Attempt} (h : attemptFails a = false) :
    ∃ t, a = .answers (some t) ∧ t ≠ [] ∧ attemptText a = t := by
  cases a with
  | raises e => simp [attemptFails] at h
  | answers o =>
    cases o with
    | none => simp [attemptFails] at h
    | some t =>
      refine ⟨t, rfl, ?_, rfl⟩
      simpa [attemptFails, List.isEmpty_iff] using h

/-- C3: whenever question or context is empty or absent, copilot_answer
fails at once with a message containing the implemented guard text
"Question and context are required", and the gateway is invoked zero
times. -/
theorem claimC3 (call : Str → Except PyExc Str) (question context : Option Str)
    (h : falsy question = true ∨ falsy context = true) :
    copilot_answer call question context =
      (0, .error (.aiServiceError
        (strL ("Failed to generate answer: Question and context are required")))) ∧
    containsB (strL ("Failed to generate answer: Question and context are required"))
      (strL ("Question and context are required")) = true := by
  have hcond : (falsy question || falsy context) = true := by
    rcases h with h | h <;> simp [h]
  constructor
  · simp only [copilot_answer, copilot_answer_body, hcond, if_true]
    have : strL ("Failed to generate answer: ") ++ strL ("Question and context are required") =
        strL ("Failed to generate answer: Question and context are required") := by decide
    simp [excMsg, this]
  · decide

/-- C3 witness: the empty question with a concrete context. -/
theorem claimC3_witness :
    copilot_answer (fun _ => .ok (strL ("hi"))) (some []) (some (strL ("ctx"))) =
      (0, .error (.aiServiceError
        (strL ("Failed to generate answer: Question and context are required")))) ∧
    containsB (strL ("Failed to generate answer: Question and context are required"))
      (strL ("Question and context are required")) = true :=
  claimC3 (fun _ => .ok (strL ("hi"))) (some []) (some (strL ("ctx"))) (.inl (by decide))

/-- C4: whenever content is absent, empty or shorter than 50 characters,
judge_bias fails at once with a message naming the 50-character threshold,
and the gateway is invoked zero times. -/
theorem claimC4 (call : Str → Except PyExc Str) (content : Option Str)
    (h : (orEmpty content).length < 50) :
    judge_bias call content =
      (0, .error (.aiServiceError
        (strL ("Unexpected error: Content must be at least 50 characters")))) ∧
    containsB (strL ("Unexpected error: Content must be at least 50 characters"))
      (strL ("at least 50 characters")) = true := by
  constructor
  · have hmsg : strL ("Unexpected error: ") ++ strL ("Content must be at least 50 characters") =
        strL ("Unexpected error: Content must be at least 50 characters") := by decide
    cases content with
    | none => simp [judge_bias, judge_bias_body, handleJudge, excMsg, hmsg]
    | some s =>
      have hs : s.length < 50 := by simpa [orEmpty] using h
      have hcond : (s.isEmpty || s.length < 50) = true := by simp [hs]
      simp [judge_bias, judge_bias_body, hcond, handleJudge, excMsg, hmsg]
  · decide

/-- C4 witness: a nine-character content. -/
theorem claimC4_witness :
    judge_bias (fun _ => .ok (strL ("x"))) (some (strL ("Too short"))) =
      (0, .error (.aiServiceError
        (strL ("Unexpected error: Content must be at least 50 characters")))) ∧
    containsB (strL ("Unexpected error: Content must be at least 50 characters"))
      (strL ("at least 50 characters")) = true :=
  claimC4 (fun _ => .ok (strL ("x"))) (some (strL ("Too short"))) (by decide)

/-- C10: the fail-fast guard messages always reach the caller wrapped by
the generic handler of the surrounding try block: exactly
"Failed to generate answer: Question and context are required" for the
copilot guard and exactly
"Unexpected error: Content must be at least 50 characters" for the
judge_bias length guard, never the bare guard text. -/
theorem claimC10 :
    (∀ (call : Str → Except PyExc Str) (question context : Option Str),
      falsy question = true ∨ falsy context = true →
      (copilot_answer call question context).2 =
        .error (.aiServiceError
          (strL ("Failed to generate answer: Question and context are required")))) ∧
    (∀ (call : Str → Except PyExc Str) (content : Option Str),
      (orEmpty content).length < 50 →
      (judge_bias call content).2 =
        .error (.aiServiceError
          (strL ("Unexpected error: Content must be at least 50 characters")))) := by
  constructor
  · intro call question context h
    rw [(claimC3 call question context h).1]
  · intro call content h
    rw [(claimC4 call content h).1]

/-- C10 witness: both guards at concrete inputs. -/
theorem claimC10_witness :
    (copilot_answer (fun _ => .ok (strL ("hi"))) (some (strL ("q"))) (some [])).2 =
      .error (.aiServiceError
        (strL ("Failed to generate answer: Question and context are required"))) ∧
    (judge_bias (fun _ => .ok (strL ("hi"))) none).2 =
      .error (.aiServiceError
        (strL ("Unexpected error: Content must be at least 50 characters"))) :=
  ⟨claimC10.1 (fun _ => .ok (strL ("hi"))) (some (strL ("q"))) (some []) (.inr (by decide)),
   claimC10.2 (fun _ => .ok (strL ("hi"))) none (by decide)⟩

/-- C1: call_with_retry makes at most 3 attempts; on the first successful
attempt (one whose call neither raises nor yields an empty or missing
payload) it returns the response text verbatim after exactly the sleeps
1 * 2 ^ 0, ..., 1 * 2 ^ (k-1) between the k failed attempts before it; and
when all 3 attempts fail it makes no fourth attempt and raises a
GeminiClientError wrapping the last underlying cause, having slept 1 then
2 units between the three attempts. -/
theorem claimC1 (oracle : Nat → Attempt) :
    (call_with_retry oracle).attempts ≤ 3 ∧
    (∀ k, k < 3 → (∀ j, j < k → attemptFails (oracle j) = true) →
      attemptFails (oracle k) = false →
      ∃ t, oracle k = .answers (some t) ∧ t ≠ [] ∧
        (call_with_retry oracle).result = .ok t ∧
        (call_with_retry oracle).attempts = k + 1 ∧
        (call_with_retry oracle).sleeps = (List.range k).map (fun j => 1 * 2 ^ j)) ∧
    ((∀ j, j < 3 → attemptFails (oracle j) = true) →
      (call_with_retry oracle).attempts = 3 ∧
      (call_with_retry oracle).sleeps = (List.range 2).map (fun j => 1 * 2 ^ j) ∧
      (call_with_retry oracle).lastError = some (causeOf (oracle 2)) ∧
      (call_with_retry oracle).result = .error (.geminiClientError
        (strL ("Gemini API call failed after 3 attempts: ") ++ excMsg (causeOf (oracle 2))))) := by
  cases h0 : attemptFails (oracle 0) with
  | false =>
    obtain ⟨t0, ha0, hne0, htx0⟩ := attemptFails_eq_false h0
    have hc : call_with_retry oracle = ⟨1, [], none, .ok t0⟩ := by
      simp [call_with_retry, retryGo, h0, htx0]
    refine ⟨by simp [hc], ?_, ?_⟩
    · intro k hk hprev hsucc
      match k with
      | 0 => exact ⟨t0, ha0, hne0, by rw [hc], by rw [hc], by rw [hc]; rfl⟩
      | k'+1 => exact absurd (hprev 0 (by omega)) (by simp [h0])
    · intro hall
      exact absurd (hall 0 (by omega)) (by simp [h0])
  | true =>
    cases h1 : attemptFails (oracle 1) with
    | false =>
      obtain ⟨t1, ha1, hne1, htx1⟩ := attemptFails_eq_false h1
      have hc : call_with_retry oracle = ⟨2, [1 * 2 ^ 0], some (causeOf (oracle 0)), .ok t1⟩ := by
        simp [call_with_retry, retryGo, h0, h1, htx1]
      refine ⟨by simp [hc], ?_, ?_⟩
      · intro k hk hprev hsucc
        match k with
        | 0 => exact absurd hsucc (by simp [h0])
        | 1 => exact ⟨t1, ha1, hne1, by rw [hc], by rw [hc], by rw [hc]; rfl⟩
        | k'+2 => exact absurd (hprev 1 (by omega)) (by simp [h1])
      · intro hall
        exact absurd (hall 1 (by omega)) (by simp [h1])
    | true =>
      cases h2 : attemptFails (oracle 2) with
      | false =>
        obtain ⟨t2, ha2, hne2, htx2⟩ := attemptFails_eq_false h2
        have hc : call_with_retry oracle =
            ⟨3, [1 * 2 ^ 0, 1 * 2 ^ 1], some (causeOf (oracle 1)), .ok t2⟩ := by
          simp [call_with_retry, retryGo, h0, h1, h2, htx2]
        refine ⟨by simp [hc], ?_, ?_⟩
        · intro k hk hprev hsucc
          match k with
          | 0 => exact absurd hsucc (by simp [h0])
          | 1 => exact absurd hsucc (by simp [h1])
          | 2 => exact ⟨t2, ha2, hne2, by rw [hc], by rw [hc], by rw [hc]; rfl⟩
          | k'+3 => omega
        · intro hall
          exact absurd (hall 2 (by omega)) (by simp [h2])
      | true =>
        have hc : call_with_retry oracle =
            ⟨3, [1 * 2 ^ 0, 1 * 2 ^ 1], some (causeOf (oracle 2)), .error (.geminiClientError
              (strL ("Gemini API call failed after 3 attempts: ") ++ excMsg (causeOf (oracle 2))))⟩ := by
          simp [call_with_retry, retryGo, h0, h1, h2]
        refine ⟨by simp [hc], ?_, ?_⟩
        · intro k hk hprev hsucc
          match k with
          | 0 => exact absurd hsucc (by simp [h0])
          | 1 => exact absurd hsucc (by simp [h1])
          | 2 => exact absurd hsucc (by simp [h2])
          | k'+3 => omega
        · intro _
          exact ⟨by rw [hc], by rw [hc]; rfl, by rw [hc], by rw [hc]⟩

/-- C1 witness: the spec scenario, failure on the first two attempts and
success on the third. -/
theorem claimC1_witness :
    (call_with_retry (fun i => if i < 2 then .raises (.otherErr (strL ("boom")))
      else .answers (some (strL ("ok"))))).attempts ≤ 3 ∧
    (∃ t, (fun i => if i < 2 then Attempt.raises (.otherErr (strL ("boom")))
        else Attempt.answers (some (strL ("ok")))) 2 = .answers (some t) ∧ t ≠ [] ∧
      (call_with_retry (fun i => if i < 2 then .raises (.otherErr (strL ("boom")))
        else .answers (some (strL ("ok"))))).result = .ok t ∧
      (call_with_retry (fun i => if i < 2 then .raises (.otherErr (strL ("boom")))
        else .answers (some (strL ("ok"))))).attempts = 2 + 1 ∧
      (call_with_retry (fun i => if i < 2 then .raises (.otherErr (strL ("boom")))
        else .answers (some (strL ("ok"))))).sleeps = (List.range 2).map (fun j => 1 * 2 ^ j)) ∧
    ((call_with_retry (fun _ => .raises (.otherErr (strL ("boom"))))).result =
      .error (.geminiClientError (strL ("Gemini API call failed after 3 attempts: ") ++
        excMsg (causeOf ((fun _ => Attempt.raises (.otherErr (strL ("boom")))) 2))))) :=
  ⟨(claimC1 (fun i => if i < 2 then .raises (.otherErr (strL ("boom")))
      else .answers (some (strL ("ok"))))).1,
   (claimC1 (fun i => if i < 2 then .raises (.otherErr (strL ("boom")))
      else .answers (some (strL ("ok"))))).2.1 2 (by omega)
      (fun j hj => by interval_cases j <;> decide) (by decide),
   ((claimC1 (fun _ => .raises (.otherErr (strL ("boom"))))).2.2
      (fun j _ => by decide)).2.2.2⟩

/-- Helper: a card accepted by the validator satisfies all three field
constraints. -/
theorem validate_card_ok {j : Json} (h : validate_card_structure j = .ok ()) :
    ∃ t d ks, jGet j (strL ("title")) = some (.str t) ∧ t ≠ [] ∧
      jGet j (strL ("description")) = some (.str d) ∧ 10 ≤ d.length ∧
      jGet j (strL ("keywords")) = some (.arr ks) ∧ ks ≠ [] := by
  unfold validate_card_structure at h
  split at h
  case _ t hT =>
    split at h
    · exact absurd h (by simp)
    · split at h
      · exact absurd h (by simp)
      · rename_i hte htl
        split at h
        case _ d hD =>
          split at h
          · exact absurd h (by simp)
          · rename_i hdl
            split at h
            case _ ks hK =>
              split at h
              · exact absurd h (by simp)
              · rename_i hke
                refine ⟨t, d, ks, hT, ?_, hD, by omega, hK, ?_⟩
                · simpa [List.isEmpty_iff] using hte
                · simpa [List.isEmpty_iff] using hke
            case _ => exact absurd h (by simp)
        case _ => exact absurd h (by simp)
  case _ => exact absurd h (by simp)

/-- C2: for every raw gateway response text, generate_card either fails
with the uniform AIServiceError or returns a card value whose title is a
present non-empty string, whose description is a present string of at
least the minimum length 10, and whose keywords are a present sequence
with at least one element; no partial card is ever returned. -/
theorem claimC2 (raw title system_prompt topics_to_cover : Str) (context_text : Option Str) :
    (∃ m, (generate_card (fun _ => .ok raw) title system_prompt topics_to_cover context_text).2 =
      .error (.aiServiceError m)) ∨
    (∃ j t d ks,
      (generate_card (fun _ => .ok raw) title system_prompt topics_to_cover context_text).2 = .ok j ∧
      jGet j (strL ("title")) = some (.str t) ∧ t ≠ [] ∧
      jGet j (strL ("description")) = some (.str d) ∧ 10 ≤ d.length ∧
      jGet j (strL ("keywords")) = some (.arr ks) ∧ ks ≠ []) := by
  cases hp : parse_json_response raw with
  | error m =>
    exact .inl ⟨strL ("Card generation failed: ") ++ m,
      by simp [generate_card, generate_card_body, hp, handleCard]⟩
  | ok j =>
    cases hv : validate_card_structure j with
    | error m =>
      exact .inl ⟨strL ("Card generation failed: ") ++ m,
        by simp [generate_card, generate_card_body, hp, hv, handleCard]⟩
    | ok u =>
      cases u
      obtain ⟨t, d, ks, h1, h2, h3, h4, h5, h6⟩ := validate_card_ok hv
      exact .inr ⟨j, t, d, ks, by simp [generate_card, generate_card_body, hp, hv],
        h1, h2, h3, h4, h5, h6⟩

/-- Helper: the generate_card exception translation always produces the
uniform AIServiceError. -/
theorem handleCard_shape (e : PyExc) : ∃ m, handleCard e = .aiServiceError m := by
  cases e <;> exact ⟨_, rfl⟩

/-- Helper: the judge_bias exception translation always produces the
uniform AIServiceError. -/
theorem handleJudge_shape (e : PyExc) : ∃ m, handleJudge e = .aiServiceError m := by
  cases e <;> exact ⟨_, rfl⟩

/-- Helper: a content of length at least 50 passes the judge_bias guard. -/
theorem judge_guard_false {s : Str} (h : 50 ≤ s.length) :
    (s.isEmpty || s.length < 50) = false := by
  have hne : s ≠ [] := by
    intro he
    rw [he] at h
    simp at h
  simp [List.isEmpty_iff, hne]
  omega

/-- C9: every failure of the three public operations surfaces as the
single uniform AIServiceError; parse and card-validation failures inside
generate_card are re-wrapped with the "Card generation failed: " prefix
followed by the original message text, and parse and bias-validation
failures inside judge_bias are re-wrapped with the
"Bias judgment failed: " prefix followed by the original message text. -/
theorem claimC9 :
    (∀ (call : Str → Except PyExc Str) t s k c e,
      (generate_card call t s k c).2 = .error e → ∃ m, e = .aiServiceError m) ∧
    (∀ (call : Str → Except PyExc Str) q c e,
      (copilot_answer call q c).2 = .error e → ∃ m, e = .aiServiceError m) ∧
    (∀ (call : Str → Except PyExc Str) c e,
      (judge_bias call c).2 = .error e → ∃ m, e = .aiServiceError m) ∧
    (∀ (call : Str → Except PyExc Str) t s k c raw m,
      call (build_card_generation_prompt t s k (some (orEmpty c))) = .ok raw →
      parse_json_response raw = .error m →
      (generate_card call t s k c).2 =
        .error (.aiServiceError (strL ("Card generation failed: ") ++ m))) ∧
    (∀ (call : Str → Except PyExc Str) t s k c raw j m,
      call (build_card_generation_prompt t s k (some (orEmpty c))) = .ok raw →
      parse_json_response raw = .ok j →
      validate_card_structure j = .error m →
      (generate_card call t s k c).2 =
        .error (.aiServiceError (strL ("Card generation failed: ") ++ m))) ∧
    (∀ (call : Str → Except PyExc Str) s raw m, 50 ≤ List.length s →
      call (build_bias_judge_prompt s) = .ok raw →
      parse_json_response raw = .error m →
      (judge_bias call (some s)).2 =
        .error (.aiServiceError (strL ("Bias judgment failed: ") ++ m))) ∧
    (∀ (call : Str → Except PyExc Str) s raw j m, 50 ≤ List.length s →
      call (build_bias_judge_prompt s) = .ok raw →
      parse_json_response raw = .ok j →
      validate_bias_response j = .error m →
      (judge_bias call (some s)).2 =
        .error (.aiServiceError (strL ("Bias judgment failed: ") ++ m))) := by
  refine ⟨?_, ?_, ?_, ?_, ?_, ?_, ?_⟩
  · intro call t s k c e h
    rcases hb : generate_card_body call t s k c with ⟨n, res⟩
    cases res with
    | ok j => simp [generate_card, hb] at h
    | error e' =>
      simp only [generate_card, hb] at h
      cases h
      exact handleCard_shape e'
  · intro call q c e h
    unfold copilot_answer at h
    rcases hb : copilot_answer_body call q c with ⟨n, res⟩
    cases res with
    | ok v => simp [hb] at h
    | error e' =>
      simp only [hb] at h
      cases h
      exact ⟨_, rfl⟩
  · intro call c e h
    rcases hb : judge_bias_body call c with ⟨n, res⟩
    cases res with
    | ok p => simp [judge_bias, hb] at h
    | error e' =>
      simp only [judge_bias, hb] at h
      cases h
      exact handleJudge_shape e'
  · intro call t s k c raw m hcall hp
    simp [generate_card, generate_card_body, hcall, hp, handleCard]
  · intro call t s k c raw j m hcall hp hv
    simp [generate_card, generate_card_body, hcall, hp, hv, handleCard]
  · intro call s raw m h50 hcall hp
    simp [judge_bias, judge_bias_body, judge_guard_false h50, hcall, hp, handleJudge]
  · intro call s raw j m h50 hcall hp hv
    simp [judge_bias, judge_bias_body, judge_guard_false h50, hcall, hp, hv, handleJudge]

/-- C9 witness: a parse failure during card generation and during bias
judgment at concrete inputs, wrapped with the operation-specific prefix
and the preserved original message. -/
theorem claimC9_witness :
    (generate_card (fun _ => .ok (strL ("not json"))) (strL ("T")) (strL ("s")) (strL ("k")) none).2 =
      .error (.aiServiceError (strL ("Card generation failed: ") ++
        strL ("Failed to parse Gemini response as JSON"))) ∧
    (judge_bias (fun _ => .ok (strL ("not json")))
      (some (strL ("Some content that is long enough to pass validation checks")))).2 =
      .error (.aiServiceError (strL ("Bias judgment failed: ") ++
        strL ("Failed to parse Gemini response as JSON"))) :=
  ⟨claimC9.2.2.2.1 (fun _ => .ok (strL ("not json"))) (strL ("T")) (strL ("s")) (strL ("k")) none
      (strL ("not json")) (strL ("Failed to parse Gemini response as JSON")) rfl (by rfl),
   claimC9.2.2.2.2.2.1 (fun _ => .ok (strL ("not json")))
      (strL ("Some content that is long enough to pass validation checks")) (strL ("not json"))
      (strL ("Failed to parse Gemini response as JSON")) (by decide) rfl (by rfl)⟩

/-- Helper: the bias validator accepts an in-range numeric score with a
non-empty explanation. -/
theorem validate_bias_ok {j : Json} {n : Int} {d : Nat} {e : Str}
    (hb : jGet j (strL ("bias_score")) = some (.num n d))
    (he : jGet j (strL ("explanation")) = some (.str e))
    (hne : e ≠ [])
    (hr : ¬(n < 0 ∨ 100 * (d : Int) < n)) :
    validate_bias_response j = .ok ((n, d), e) := by
  unfold validate_bias_response
  rw [hb, he]
  simp [List.isEmpty_iff, hne, hr]

/-- Helper: the bias validator reports an out-of-range numeric score. -/
theorem validate_bias_range {j : Json} {n : Int} {d : Nat} {e : Str}
    (hb : jGet j (strL ("bias_score")) = some (.num n d))
    (he : jGet j (strL ("explanation")) = some (.str e))
    (hne : e ≠ [])
    (hr : n < 0 ∨ 100 * (d : Int) < n) :
    validate_bias_response j = .error (strL ("Bias score out of range")) := by
  unfold validate_bias_response
  rw [hb, he]
  simp [List.isEmpty_iff, hne, hr]

/-- Helper: the bias validator reports a missing field as an invalid
format. -/
theorem validate_bias_missing {j : Json}
    (h : jGet j (strL ("bias_score")) = none ∨ jGet j (strL ("explanation")) = none) :
    validate_bias_response j = .error (strL ("Invalid bias judge response format")) := by
  unfold validate_bias_response
  rcases h with h | h
  · rw [h]
  · cases hb2 : jGet j (strL ("bias_score")) with
    | none => rfl
    | some v => cases v <;> rw [h]

/-- C5: for sufficiently long content, judge_bias succeeds on a gateway
response decoding to bias_score value 0 and on one decoding to value 100
(inclusive boundaries), while values 150 and -10 fail with the
"Bias score out of range" message, which is distinct from the
"Invalid bias judge response format" message produced when bias_score or
explanation is missing. -/
theorem claimC5 (content raw : Str) (j : Json) (n : Int) (d : Nat) (e : Str)
    (h50 : 50 ≤ List.length content)
    (hd : 0 < d)
    (hp : parse_json_response raw = .ok j)
    (hb : jGet j (strL ("bias_score")) = some (.num n d))
    (he : jGet j (strL ("explanation")) = some (.str e))
    (hne : e ≠ []) :
    ((n = 0 ∨ n = 100 * (d : Int)) →
      (judge_bias (fun _ => .ok raw) (some content)).2 = .ok ((n, d), e)) ∧
    ((n = 150 * (d : Int) ∨ n = -10 * (d : Int)) →
      (judge_bias (fun _ => .ok raw) (some content)).2 =
        .error (.aiServiceError (strL ("Bias judgment failed: Bias score out of range")))) ∧
    (∀ raw2 j2, parse_json_response raw2 = .ok j2 →
      (jGet j2 (strL ("bias_score")) = none ∨ jGet j2 (strL ("explanation")) = none) →
      (judge_bias (fun _ => .ok raw2) (some content)).2 =
        .error (.aiServiceError (strL ("Bias judgment failed: Invalid bias judge response format")))) ∧
    strL ("Bias judgment failed: Bias score out of range") ≠
      strL ("Bias judgment failed: Invalid bias judge response format") := by
  refine ⟨?_, ?_, ?_, by decide⟩
  · intro hn
    have hr : ¬(n < 0 ∨ 100 * (d : Int) < n) := by
      rcases hn with hn | hn <;> subst hn <;> push_neg <;> constructor <;> omega
    simp [judge_bias, judge_bias_body, judge_guard_false h50, hp,
      validate_bias_ok hb he hne hr]
  · intro hn
    have hr : n < 0 ∨ 100 * (d : Int) < n := by
      rcases hn with hn | hn <;> subst hn
      · right; omega
      · left; omega
    have hmsg : strL ("Bias judgment failed: ") ++ strL ("Bias score out of range")
        = strL ("Bias judgment failed: Bias score out of range") := by decide
    simp [judge_bias, judge_bias_body, judge_guard_false h50, hp,
      validate_bias_range hb he hne hr, handleJudge, hmsg]
  · intro raw2 j2 hp2 hmiss
    have hmsg : strL ("Bias judgment failed: ") ++ strL ("Invalid bias judge response format")
        = strL ("Bias judgment failed: Invalid bias judge response format") := by decide
    simp [judge_bias, judge_bias_body, judge_guard_false h50, hp2,
      validate_bias_missing hmiss, handleJudge, hmsg]

/-- C5 witness: boundary score 0.0 succeeds and 150.0 is out of range, at
concrete gateway responses. -/
theorem claimC5_witness :
    (judge_bias (fun _ => .ok (strL ("\x7b\"bias_score\": 0.0, \"explanation\": \"E\"\x7d")))
      (some (strL ("Some content that is long enough to pass validation checks")))).2 =
      .ok ((0, 10), strL ("E")) ∧
    (judge_bias (fun _ => .ok (strL ("\x7b\"bias_score\": 150.0, \"explanation\": \"E\"\x7d")))
      (some (strL ("Some content that is long enough to pass validation checks")))).2 =
      .error (.aiServiceError (strL ("Bias judgment failed: Bias score out of range"))) :=
  ⟨(claimC5 (strL ("Some content that is long enough to pass validation checks"))
      (strL ("\x7b\"bias_score\": 0.0, \"explanation\": \"E\"\x7d"))
      (.obj [(strL ("bias_score"), .num 0 10), (strL ("explanation"), .str (strL ("E")))])
      0 10 (strL ("E")) (by decide) (by decide) (by rfl) (by rfl) (by rfl) (by decide)).1
      (.inl rfl),
   (claimC5 (strL ("Some content that is long enough to pass validation checks"))
      (strL ("\x7b\"bias_score\": 150.0, \"explanation\": \"E\"\x7d"))
      (.obj [(strL ("bias_score"), .num 1500 10), (strL ("explanation"), .str (strL ("E")))])
      1500 10 (strL ("E")) (by decide) (by decide) (by rfl) (by rfl) (by rfl) (by decide)).2.1
      (.inl (by decide))⟩

/-- Helper: the head of a dropWhile result does not satisfy the
predicate. -/
theorem dropWhile_head_false {p : Char → Bool} {l : Str} {c : Char} {t : Str}
    (h : l.dropWhile p = c :: t) : p c = false := by
  induction l with
  | nil => simp at h
  | cons a l ih =>
    by_cases ha : p a = true
    · rw [List.dropWhile_cons, if_pos ha] at h
      exact ih h
    · rw [List.dropWhile_cons, if_neg ha] at h
      cases h
      simpa using ha

/-- Helper: dropWhile is idempotent. -/
theorem dropWhile_dropWhile (p : Char → Bool) (l : Str) :
    (l.dropWhile p).dropWhile p = l.dropWhile p := by
  cases hd : l.dropWhile p with
  | nil => simp
  | cons c t => rw [List.dropWhile_cons, if_neg (by simp [dropWhile_head_false hd])]

/-- Helper: stripBy keeps a prefix of its lstripBy stage. -/
theorem rstripBy_pre (p : Char → Bool) (l : Str) : rstripBy p l <+: l := by
  have h : l.reverse.dropWhile p <:+ l.reverse := List.dropWhile_suffix p
  have h2 : (l.reverse.dropWhile p).reverse <+: l.reverse.reverse := List.reverse_prefix.mpr h
  simpa [rstripBy] using h2

/-- Helper: stripping twice is the same as stripping once. -/
theorem stripBy_idem (p : Char → Bool) (l : Str) :
    stripBy p (stripBy p l) = stripBy p l := by
  have h1 : (stripBy p l).dropWhile p = stripBy p l := by
    cases hcase : stripBy p l with
    | nil => simp
    | cons c t =>
      have hpre : c :: t <+: lstripBy p l := by
        rw [← hcase]
        exact rstripBy_pre p (lstripBy p l)
      obtain ⟨r, hr⟩ := hpre
      have hl3 : l.dropWhile p = c :: (t ++ r) := by
        show lstripBy p l = c :: (t ++ r)
        rw [← hr]
        simp
      have hhead : p c = false := dropWhile_head_false hl3
      rw [List.dropWhile_cons, if_neg (by simp [hhead])]
  have h2 : (stripBy p l).reverse.dropWhile p = (stripBy p l).reverse := by
    have hrev : (stripBy p l).reverse = (lstripBy p l).reverse.dropWhile p := by
      unfold stripBy rstripBy
      rw [List.reverse_reverse]
    rw [hrev]
    exact dropWhile_dropWhile p _
  show rstripBy p (lstripBy p (stripBy p l)) = stripBy p l
  unfold lstripBy rstripBy
  rw [h1, h2, List.reverse_reverse]

/-- Helper: a string whose strip is empty is all predicate characters. -/
theorem stripBy_eq_nil {p : Char → Bool} {l : Str} (h : stripBy p l = []) :
    ∀ c ∈ l, p c = true := by
  unfold stripBy rstripBy lstripBy at h
  have h1 : (l.dropWhile p).reverse.dropWhile p = [] := by
    have := congrArg List.reverse h
    simpa using this
  have h2 : ∀ c ∈ (l.dropWhile p).reverse, p c = true := List.dropWhile_eq_nil_iff.1 h1
  have h3 : ∀ c ∈ l.dropWhile p, p c = true := by
    intro c hc
    exact h2 c (by simpa using hc)
  intro c hc
  have htd : l.takeWhile p ++ l.dropWhile p = l := List.takeWhile_append_dropWhile p l
  rw [← htd] at hc
  rcases List.mem_append.1 hc with hc | hc
  · exact List.mem_takeWhile_imp hc
  · exact h3 c hc

/-- C7 counterexample: with non-empty question and context and a gateway
call that succeeds with a whitespace-only response, copilot_answer
returns successfully with the empty string, so the returned string is not
always non-empty as claimed. -/
theorem claimC7_counterexample :
    copilot_answer (fun _ => .ok (strL ("   ")))
      (some (strL ("q"))) (some (strL ("ctx"))) = (1, .ok []) := by rfl

/-- C7 (amended): for every non-empty question and context, whenever the
gateway call succeeds copilot_answer returns the stripped response, which
is trimmed of surrounding whitespace (stripping it again changes
nothing); it is non-empty provided the gateway response contains at least
one non-whitespace character. -/
theorem claimC7 (call : Str → Except PyExc Str) (q c : Option Str) (resp : Str)
    (hq : falsy q = false) (hc : falsy c = false)
    (hcall : call (build_copilot_prompt (orEmpty q) (orEmpty c)) = .ok resp) :
    copilot_answer call q c = (1, .ok (pystrip resp)) ∧
    pystrip (pystrip resp) = pystrip resp ∧
    ((∃ ch ∈ resp, pWsB ch = false) → pystrip resp ≠ []) := by
  refine ⟨?_, stripBy_idem pWsB resp, ?_⟩
  · simp [copilot_answer, copilot_answer_body, hq, hc, hcall]
  · rintro ⟨ch, hmem, hws⟩ hnil
    have := stripBy_eq_nil hnil ch hmem
    rw [this] at hws
    cases hws

/-- C7 witness: a padded non-empty response is returned trimmed and
non-empty. -/
theorem claimC7_witness :
    copilot_answer (fun _ => .ok (strL ("  hi  "))) (some (strL ("q"))) (some (strL ("c"))) =
      (1, .ok (pystrip (strL ("  hi  ")))) ∧
    pystrip (strL ("  hi  ")) ≠ [] :=
  ⟨(claimC7 (fun _ => .ok (strL ("  hi  "))) (some (strL ("q"))) (some (strL ("c")))
      (strL ("  hi  ")) (by decide) (by decide) rfl).1,
   (claimC7 (fun _ => .ok (strL ("  hi  "))) (some (strL ("q"))) (some (strL ("c")))
      (strL ("  hi  ")) (by decide) (by decide) rfl).2.2 ⟨'h', by decide, by decide⟩⟩

/-- Helper: decomposition of an occurrence inside an append: the pattern
lies in the left part, in the right part, or spans the junction. -/
theorem infix_append_cases {s a b : Str} (h : s <:+: a ++ b) :
    s <:+: a ∨ s <:+: b ∨ ∃ s1 s2, s = s1 ++ s2 ∧ s1 ≠ [] ∧ s2 ≠ [] ∧ s1 <:+ a ∧ s2 <+: b := by
  obtain ⟨p, q, hpq⟩ := h
  have h1 : p ++ (s ++ q) = a ++ b := by simpa [List.append_assoc] using hpq
  rcases List.append_eq_append_iff.1 h1 with ⟨a', ha, hsq⟩ | ⟨c', hp, hb⟩
  · rcases List.append_eq_append_iff.1 hsq with ⟨a'', ha', hq⟩ | ⟨c'', hs, hb'⟩
    · left
      exact ⟨p, a'', by rw [ha, ha']; simp [List.append_assoc]⟩
    · by_cases hA : a' = []
      · right; left
        subst hA
        simp only [List.nil_append] at hs
        exact ⟨[], q, by rw [hb', ← hs]; simp⟩
      · by_cases hC : c'' = []
        · left
          subst hC
          rw [List.append_nil] at hs
          exact ⟨p, [], by rw [ha, hs]; simp⟩
        · right; right
          exact ⟨a', c'', hs, hA, hC, ⟨p, ha.symm⟩, ⟨q, hb'.symm⟩⟩
  · right; left
    exact ⟨c', q, by rw [hb]; simp [List.append_assoc]⟩

/-- Helper: a pattern whose first character does not occur in the left
part of an append cannot occur in that append unless it occurs in the
right part. -/
theorem not_infix_append_left {M X r : Str} {mh : Char} {mt : Str}
    (hM : M = mh :: mt) (hmem : mh ∉ X) (hr : ¬ M <:+: r) : ¬ M <:+: (X ++ r) := by
  intro h
  rcases infix_append_cases h with h | h | ⟨s1, s2, hs, h1, h2, hsuf, hpre⟩
  · exact hmem (h.mem (by rw [hM]; exact List.mem_cons_self mh mt))
  · exact hr h
  · cases s1 with
    | nil => exact h1 rfl
    | cons c cs =>
      rw [hM] at hs
      have hc : mh = c := by
        have hcc : mh :: mt = c :: (cs ++ s2) := by simpa using hs
        injection hcc with hh
      exact hmem (hsuf.subset (by rw [hc]; exact List.mem_cons_self c cs))

/-- Helper: a pattern not containing the first character of the right
part of an append cannot span the junction. -/
theorem not_infix_append_right {M a : Str} {h0 : Char} {rt : Str}
    (hmem : h0 ∉ M) (ha : ¬ M <:+: a) (hr : ¬ M <:+: (h0 :: rt)) : ¬ M <:+: (a ++ h0 :: rt) := by
  intro h
  rcases infix_append_cases h with h | h | ⟨s1, s2, hs, h1, h2, hsuf, hpre⟩
  · exact ha h
  · exact hr h
  · cases s2 with
    | nil => exact h2 rfl
    | cons c cs =>
      obtain ⟨t, ht⟩ := hpre
      have hc : c = h0 := by
        have hcc : c :: (cs ++ t) = h0 :: rt := by simpa using ht
        injection hcc with hh
      have hmemM : c ∈ M := by
        rw [hs]
        exact List.mem_append.2 (.inr (List.mem_cons_self c cs))
      rw [hc] at hmemM
      exact hmem hmemM

/-- Helper: the boolean substring test agrees with list infixes. -/
theorem containsB_iff {l s : Str} : containsB l s = true ↔ s <:+: l := by
  induction l with
  | nil =>
    simp [containsB, List.isPrefixOf_iff_prefix]
  | cons c t ih =>
    rw [containsB, Bool.or_eq_true, List.isPrefixOf_iff_prefix, ih, List.infix_cons_iff]

/-- Helper: the negative form of the boolean substring test. -/
theorem containsB_false_iff {l s : Str} : containsB l s = false ↔ ¬ s <:+: l := by
  rw [← containsB_iff]
  cases containsB l s <;> simp

/-- Helper: an infix of the middle part is an infix of the whole. -/
theorem infix_extend {x m : Str} (h : x <:+: m) (a b : Str) : x <:+: a ++ (m ++ b) :=
  h.trans ⟨a, b, by simp [List.append_assoc]⟩

/-- C8 counterexample: with context_text absent, a title that itself
contains the marker text makes the built prompt contain an
"ADDITIONAL CONTEXT" marker, so the claim as stated fails for some
titles. -/
theorem claimC8_counterexample :
    containsB (build_card_generation_prompt (strL ("ADDITIONAL CONTEXT")) (strL ("Sys"))
      (strL ("Topics")) none) (strL ("ADDITIONAL CONTEXT")) = true := by decide

/-- C8 (amended): for every title, systemPrompt and topicsToCover, the
prompt built with a non-empty contextText contains the
"ADDITIONAL CONTEXT" section marker and the context text verbatim; and
provided the three caller fields do not themselves contain the marker
text, the prompt built with contextText None or empty contains no
"ADDITIONAL CONTEXT" marker at all (the section is omitted). -/
theorem claimC8 (title sp topics : Str) :
    (∀ c : Str, c ≠ [] →
      containsB (build_card_generation_prompt title sp topics (some c))
        (strL ("ADDITIONAL CONTEXT")) = true ∧
      containsB (build_card_generation_prompt title sp topics (some c)) c = true) ∧
    (∀ ctx : Option Str, ctx = none ∨ ctx = some [] →
      containsB title (strL ("ADDITIONAL CONTEXT")) = false →
      containsB sp (strL ("ADDITIONAL CONTEXT")) = false →
      containsB topics (strL ("ADDITIONAL CONTEXT")) = false →
      containsB (build_card_generation_prompt title sp topics ctx)
        (strL ("ADDITIONAL CONTEXT")) = false) := by
  constructor
  · intro c hc
    have hce : c.isEmpty = false := by simp [List.isEmpty_iff, hc]
    have hsplit : build_card_generation_prompt title sp topics (some c) =
        (cgF0 ++ title ++ cgF1 ++ sp ++ cgF2 ++ topics) ++ (cgSect ++ (c ++ cgF3)) := by
      simp [build_card_generation_prompt, hce, List.append_assoc]
    constructor
    · refine containsB_iff.2 ?_
      rw [hsplit]
      exact infix_extend (by decide) _ _
    · refine containsB_iff.2 ?_
      rw [hsplit]
      have hcm : c <:+: (cgSect ++ (c ++ cgF3)) := ⟨cgSect, cgF3, by simp [List.append_assoc]⟩
      exact hcm.trans ⟨cgF0 ++ title ++ cgF1 ++ sp ++ cgF2 ++ topics, [], by simp⟩
  · intro ctx hctx ht hs hk
    have hM : strL ("ADDITIONAL CONTEXT") = 'A' :: strL ("DDITIONAL CONTEXT") := rfl
    have ht' := containsB_false_iff.1 ht
    have hs' := containsB_false_iff.1 hs
    have hk' := containsB_false_iff.1 hk
    have n1 : ¬ strL ("ADDITIONAL CONTEXT") <:+: cgF3 := containsB_false_iff.1 (by decide)
    have n2 : ¬ strL ("ADDITIONAL CONTEXT") <:+: (topics ++ cgF3) := by
      have h3 : cgF3 = '\n' ::
          strL ("\nReturn only one JSON object with keys title, description, keywords.") := rfl
      rw [h3]
      exact not_infix_append_right (by decide) hk' (h3 ▸ n1)
    have n3 : ¬ strL ("ADDITIONAL CONTEXT") <:+: (cgF2 ++ (topics ++ cgF3)) :=
      not_infix_append_left hM (by decide) n2
    have n4 : ¬ strL ("ADDITIONAL CONTEXT") <:+: (sp ++ (cgF2 ++ (topics ++ cgF3))) := by
      have h2 : cgF2 ++ (topics ++ cgF3) =
          '\n' :: (strL ("\nTOPICS TO COVER: ") ++ (topics ++ cgF3)) := rfl
      rw [h2]
      exact not_infix_append_right (by decide) hs' (h2 ▸ n3)
    have n5 : ¬ strL ("ADDITIONAL CONTEXT") <:+: (cgF1 ++ (sp ++ (cgF2 ++ (topics ++ cgF3)))) :=
      not_infix_append_left hM (by decide) n4
    have n6 : ¬ strL ("ADDITIONAL CONTEXT") <:+:
        (title ++ (cgF1 ++ (sp ++ (cgF2 ++ (topics ++ cgF3))))) := by
      have h1 : cgF1 ++ (sp ++ (cgF2 ++ (topics ++ cgF3))) =
          '\n' :: (strL ("\nSYSTEM PROMPT: ") ++ (sp ++ (cgF2 ++ (topics ++ cgF3)))) := rfl
      rw [h1]
      exact not_infix_append_right (by decide) ht' (h1 ▸ n5)
    have n7 : ¬ strL ("ADDITIONAL CONTEXT") <:+:
        (cgF0 ++ (title ++ (cgF1 ++ (sp ++ (cgF2 ++ (topics ++ cgF3)))))) :=
      not_infix_append_left hM (by decide) n6
    have hprompt : build_card_generation_prompt title sp topics ctx =
        cgF0 ++ (title ++ (cgF1 ++ (sp ++ (cgF2 ++ (topics ++ cgF3))))) := by
      rcases hctx with h | h <;> subst h <;>
        simp [build_card_generation_prompt, List.append_assoc, List.isEmpty_iff]
    refine containsB_false_iff.2 ?_
    rw [hprompt]
    exact n7

/-- C8 witness: the concrete prompts of test_prompts.py. -/
theorem claimC8_witness :
    containsB (build_card_generation_prompt (strL ("Title")) (strL ("Sys")) (strL ("Topics"))
      (some (strL ("CTX")))) (strL ("ADDITIONAL CONTEXT")) = true ∧
    containsB (build_card_generation_prompt (strL ("Title")) (strL ("Sys")) (strL ("Topics"))
      (some (strL ("CTX")))) (strL ("CTX")) = true ∧
    containsB (build_card_generation_prompt (strL ("Title")) (strL ("Sys")) (strL ("Topics"))
      none) (strL ("ADDITIONAL CONTEXT")) = false :=
  ⟨((claimC8 (strL ("Title")) (strL ("Sys")) (strL ("Topics"))).1 (strL ("CTX")) (by decide)).1,
   ((claimC8 (strL ("Title")) (strL ("Sys")) (strL ("Topics"))).1 (strL ("CTX")) (by decide)).2,
   (claimC8 (strL ("Title")) (strL ("Sys")) (strL ("Topics"))).2 none (.inl rfl)
     (by decide) (by decide) (by decide)⟩

/-- Helper: a digit character is not whitespace and not a backtick. -/
theorem digit_not_ws {c : Char} (h : digitB c = true) :
    pWsB c = false ∧ jWsB c = false ∧ c ≠ btick := by
  have hn : 48 ≤ c.toNat ∧ c.toNat ≤ 57 := by simpa [digitB] using h
  have h1 : c ≠ ' ' := fun he => by subst he; exact absurd hn (by decide)
  have h2 : c ≠ '\t' := fun he => by subst he; exact absurd hn (by decide)
  have h3 : c ≠ '\n' := fun he => by subst he; exact absurd hn (by decide)
  have h4 : c ≠ '\r' := fun he => by subst he; exact absurd hn (by decide)
  have h5 : c ≠ '\x0b' := fun he => by subst he; exact absurd hn (by decide)
  have h6 : c ≠ '\x0c' := fun he => by subst he; exact absurd hn (by decide)
  have h7 : c ≠ btick := fun he => by subst he; exact absurd hn (by decide)
  exact ⟨by simp [pWsB, jWsB, h1, h2, h3, h4, h5, h6],
    by simp [jWsB, h1, h2, h3, h4], h7⟩

/-- Helper: the characters that can start or end a decodable JSON text
are not whitespace and not a backtick. -/
theorem safeChar_facts {c : Char}
    (h : c = lcurl ∨ c = rcurl ∨ c = '[' ∨ c = ']' ∨ c = dquote ∨ c = 't' ∨ c = 'f' ∨
      c = 'n' ∨ c = '-' ∨ c = 'e' ∨ c = 'l' ∨ digitB c = true) :
    pWsB c = false ∧ jWsB c = false ∧ c ≠ btick := by
  rcases h with h | h | h | h | h | h | h | h | h | h | h | h
  · subst h; exact ⟨by decide, by decide, by decide⟩
  · subst h; exact ⟨by decide, by decide, by decide⟩
  · subst h; exact ⟨by decide, by decide, by decide⟩
  · subst h; exact ⟨by decide, by decide, by decide⟩
  · subst h; exact ⟨by decide, by decide, by decide⟩
  · subst h; exact ⟨by decide, by decide, by decide⟩
  · subst h; exact ⟨by decide, by decide, by decide⟩
  · subst h; exact ⟨by decide, by decide, by decide⟩
  · subst h; exact ⟨by decide, by decide, by decide⟩
  · subst h; exact ⟨by decide, by decide, by decide⟩
  · subst h; exact ⟨by decide, by decide, by decide⟩
  · exact digit_not_ws h

/-- Helper: a cons-preserving prefix. -/
theorem prefix_cons_cons {c : Char} {x y : Str} (h : x <+: y) : c :: x <+: c :: y := by
  obtain ⟨t, ht⟩ := h
  exact ⟨t, by rw [← ht]; rfl⟩

/-- Helper: the integer part token is a prefix of its input. -/
theorem intTok_pre (l : Str) : intTok l <+: l := by
  cases l with
  | nil => simp [intTok]
  | cons c r =>
    simp only [intTok]
    by_cases h0 : c = '0'
    · rw [if_pos h0]
      subst h0
      exact ⟨r, rfl⟩
    · rw [if_neg h0]
      by_cases hd : digitB c = true
      · rw [if_pos hd]
        exact prefix_cons_cons (List.takeWhile_prefix digitB)
      · rw [if_neg hd]
        exact List.nil_prefix

/-- Helper: the fraction token is a prefix of its input. -/
theorem fracTok_pre (l : Str) : fracTok l <+: l := by
  cases l with
  | nil => simp [fracTok]
  | cons c r =>
    simp only [fracTok]
    by_cases h0 : c = '.'
    · rw [if_pos h0]
      by_cases he : (r.takeWhile digitB).isEmpty = true
      · rw [if_pos he]
        exact List.nil_prefix
      · rw [if_neg he]
        exact prefix_cons_cons (List.takeWhile_prefix digitB)
    · rw [if_neg h0]
      exact List.nil_prefix

/-- Helper: the exponent token is a prefix of its input. -/
theorem expTok_pre (l : Str) : expTok l <+: l := by
  cases l with
  | nil => simp [expTok]
  | cons c r =>
    cases r with
    | nil => simp [expTok]
    | cons s r2 =>
      simp only [expTok]
      by_cases h0 : c = 'e' ∨ c = 'E'
      · rw [if_pos h0]
        by_cases hs : s = '+' ∨ s = '-'
        · rw [if_pos hs]
          by_cases he : (r2.takeWhile digitB).isEmpty = true
          · rw [if_pos he]
            exact List.nil_prefix
          · rw [if_neg he]
            exact prefix_cons_cons (prefix_cons_cons (List.takeWhile_prefix digitB))
        · rw [if_neg hs]
          by_cases he : ((s :: r2).takeWhile digitB).isEmpty = true
          · rw [if_pos he]
            exact List.nil_prefix
          · rw [if_neg he]
            exact prefix_cons_cons (List.takeWhile_prefix digitB)
      · rw [if_neg h0]
        exact List.nil_prefix

/-- Helper: composing prefixes taken successively from an input. -/
theorem prefix_compose {a b l : Str} (ha : a <+: l) (hb : b <+: l.drop a.length) :
    a ++ b <+: l := by
  obtain ⟨x, hx⟩ := ha
  have hdl : l.drop a.length = x := by
    rw [← hx]
    exact List.drop_left a x
  obtain ⟨y, hy⟩ := hb
  rw [hdl] at hy
  exact ⟨y, by rw [← hx, ← hy]; simp [List.append_assoc]⟩

/-- Helper: the unsigned number token is a prefix of its input. -/
theorem posTok_pre (l : Str) : posTok l <+: l := by
  simp only [posTok]
  by_cases he : (intTok l).isEmpty = true
  · rw [if_pos he]
    exact List.nil_prefix
  · rw [if_neg he]
    rw [List.append_assoc]
    exact prefix_compose (intTok_pre l)
      (prefix_compose (fracTok_pre _) (expTok_pre _))

/-- Helper: the number token is a prefix of its input. -/
theorem numToken_pre (l : Str) : numToken l <+: l := by
  cases l with
  | nil => simp [numToken]
  | cons c r =>
    simp only [numToken]
    by_cases h0 : c = '-'
    · rw [if_pos h0]
      by_cases he : (posTok r).isEmpty = true
      · rw [if_pos he]
        exact List.nil_prefix
      · rw [if_neg he]
        exact prefix_cons_cons (posTok_pre r)
    · rw [if_neg h0]
      exact posTok_pre (c :: r)

/-- Helper: a non-empty all-digit string ends in a digit. -/
theorem all_digits_ends {ds : Str} (hne : ds ≠ []) (hall : ∀ x ∈ ds, digitB x = true) :
    ∃ ini lc, ds = ini ++ [lc] ∧ digitB lc = true := by
  induction ds with
  | nil => cases hne rfl
  | cons d ds ih =>
    cases hd2 : ds with
    | nil => exact ⟨[], d, by simp, hall d (by simp)⟩
    | cons e es =>
      obtain ⟨ini, lc, h1, h2⟩ := ih (by simp [hd2]) (fun x hx => hall x (by simp [hx]))
      exact ⟨d :: ini, lc, by rw [← hd2, h1]; rfl, h2⟩

/-- Helper: appending preserves ending in a digit. -/
theorem ends_append {a b : Str} (h : ∃ ini lc, b = ini ++ [lc] ∧ digitB lc = true) :
    ∃ ini lc, a ++ b = ini ++ [lc] ∧ digitB lc = true := by
  obtain ⟨ini, lc, h1, h2⟩ := h
  exact ⟨a ++ ini, lc, by rw [h1]; simp [List.append_assoc], h2⟩

/-- Helper: a non-empty integer part token ends in a digit. -/
theorem intTok_ends {l : Str} (h : intTok l ≠ []) :
    ∃ ini lc, intTok l = ini ++ [lc] ∧ digitB lc = true := by
  cases l with
  | nil => simp [intTok] at h
  | cons c r =>
    simp only [intTok] at h ⊢
    by_cases h0 : c = '0'
    · rw [if_pos h0]
      exact ⟨[], c, by simp, by rw [h0]; decide⟩
    · rw [if_neg h0] at h ⊢
      by_cases hd : digitB c = true
      · rw [if_pos hd]
        refine all_digits_ends (by simp) ?_
        intro x hx
        rcases List.mem_cons.1 hx with hx | hx
        · rw [hx]; exact hd
        · exact List.mem_takeWhile_imp hx
      · rw [if_neg hd] at h
        cases h rfl

/-- Helper: a non-empty fraction token ends in a digit. -/
theorem fracTok_ends {l : Str} (h : fracTok l ≠ []) :
    ∃ ini lc, fracTok l = ini ++ [lc] ∧ digitB lc = true := by
  cases l with
  | nil => simp [fracTok] at h
  | cons c r =>
    simp only [fracTok] at h ⊢
    by_cases h0 : c = '.'
    · rw [if_pos h0] at h ⊢
      by_cases he : (r.takeWhile digitB).isEmpty = true
      · rw [if_pos he] at h
        cases h rfl
      · rw [if_neg he] at h ⊢
        have hds : ∃ ini lc, r.takeWhile digitB = ini ++ [lc] ∧ digitB lc = true := by
          refine all_digits_ends ?_ ?_
          · intro hc
            rw [hc] at he
            exact he rfl
          · intro x hx
            exact List.mem_takeWhile_imp hx
        have : c :: r.takeWhile digitB = [c] ++ r.takeWhile digitB := rfl
        rw [this]
        exact ends_append hds
    · rw [if_neg h0] at h
      cases h rfl

/-- Helper: a non-empty exponent token ends in a digit. -/
theorem expTok_ends {l : Str} (h : expTok l ≠ []) :
    ∃ ini lc, expTok l = ini ++ [lc] ∧ digitB lc = true := by
  cases l with
  | nil => simp [expTok] at h
  | cons c r =>
    cases r with
    | nil => simp [expTok] at h
    | cons s r2 =>
      simp only [expTok] at h ⊢
      by_cases h0 : c = 'e' ∨ c = 'E'
      · rw [if_pos h0] at h ⊢
        by_cases hs : s = '+' ∨ s = '-'
        · rw [if_pos hs] at h ⊢
          by_cases he : (r2.takeWhile digitB).isEmpty = true
          · rw [if_pos he] at h
            cases h rfl
          · rw [if_neg he] at h ⊢
            have hds : ∃ ini lc, r2.takeWhile digitB = ini ++ [lc] ∧ digitB lc = true := by
              refine all_digits_ends ?_ (fun x hx => List.mem_takeWhile_imp hx)
              intro hc
              rw [hc] at he
              exact he rfl
            have : c :: s :: r2.takeWhile digitB = [c, s] ++ r2.takeWhile digitB := rfl
            rw [this]
            exact ends_append hds
        · rw [if_neg hs] at h ⊢
          by_cases he : ((s :: r2).takeWhile digitB).isEmpty = true
          · rw [if_pos he] at h
            cases h rfl
          · rw [if_neg he] at h ⊢
            have hds : ∃ ini lc, (s :: r2).takeWhile digitB = ini ++ [lc] ∧ digitB lc = true := by
              refine all_digits_ends ?_ (fun x hx => List.mem_takeWhile_imp hx)
              intro hc
              rw [hc] at he
              exact he rfl
            have : c :: (s :: r2).takeWhile digitB = [c] ++ (s :: r2).takeWhile digitB := rfl
            rw [this]
            exact ends_append hds
      · rw [if_neg h0] at h
        cases h rfl

/-- Helper: a non-empty unsigned number token ends in a digit. -/
theorem posTok_ends {l : Str} (h : posTok l ≠ []) :
    ∃ ini lc, posTok l = ini ++ [lc] ∧ digitB lc = true := by
  simp only [posTok] at h ⊢
  by_cases he : (intTok l).isEmpty = true
  · rw [if_pos he] at h
    cases h rfl
  · rw [if_neg he] at h ⊢
    by_cases hE : expTok ((l.drop (intTok l).length).drop (fracTok (l.drop (intTok l).length)).length) = []
    · rw [hE, List.append_nil]
      by_cases hF : fracTok (l.drop (intTok l).length) = []
      · rw [hF, List.append_nil]
        refine intTok_ends ?_
        intro hc
        rw [hc] at he
        exact he rfl
      · exact ends_append (fracTok_ends hF)
    · rw [List.append_assoc]
      exact ends_append (ends_append (expTok_ends hE))

/-- Helper: a non-empty number token ends in a digit. -/
theorem numToken_ends {l : Str} (h : numToken l ≠ []) :
    ∃ ini lc, numToken l = ini ++ [lc] ∧ digitB lc = true := by
  cases l with
  | nil => simp [numToken] at h
  | cons c r =>
    simp only [numToken] at h ⊢
    by_cases h0 : c = '-'
    · rw [if_pos h0] at h ⊢
      by_cases he : (posTok r).isEmpty = true
      · rw [if_pos he] at h
        cases h rfl
      · rw [if_neg he] at h ⊢
        have : c :: posTok r = [c] ++ posTok r := rfl
        rw [this]
        refine ends_append (posTok_ends ?_)
        intro hc
        rw [hc] at he
        exact he rfl
    · rw [if_neg h0] at h ⊢
      exact posTok_ends h

/-- Helper: a non-empty number token starts with a minus sign or a
digit. -/
theorem numToken_head {c : Char} {r : Str} (h : numToken (c :: r) ≠ []) :
    c = '-' ∨ digitB c = true := by
  simp only [numToken] at h
  by_cases h0 : c = '-'
  · exact .inl h0
  · rw [if_neg h0] at h
    simp only [posTok] at h
    by_cases he : (intTok (c :: r)).isEmpty = true
    · rw [if_pos he] at h
      cases h rfl
    · right
      have hi : intTok (c :: r) ≠ [] := by
        intro hc
        rw [hc] at he
        exact he rfl
      simp only [intTok] at hi
      by_cases hz : c = '0'
      · rw [hz]; decide
      · rw [if_neg hz] at hi
        by_cases hd : digitB c = true
        · exact hd
        · rw [if_neg hd] at hi
          cases hi rfl

theorem suffix_cons_trans {c : Char} {x l : Str} (h : x <:+ l) : x <:+ c :: l :=
  h.trans (List.suffix_cons c l)

theorem escChar_suffix {c : Char} {r : Str} {ch : Char} {r' : Str}
    (h : escChar c r = some (ch, r')) : r' <:+ r := by
  simp only [escChar] at h
  split_ifs at h with h1 h2 h3 h4 h5 h6 h7 h8 h9
  · cases h; exact List.suffix_refl _
  · cases h; exact List.suffix_refl _
  · cases h; exact List.suffix_refl _
  · cases h; exact List.suffix_refl _
  · cases h; exact List.suffix_refl _
  · cases h; exact List.suffix_refl _
  · cases h; exact List.suffix_refl _
  · cases h; exact List.suffix_refl _
  · split at h
    · rename_i a1 a2 a3 a4 r2
      split at h
      · cases h
        exact suffix_cons_trans (suffix_cons_trans (suffix_cons_trans
          (suffix_cons_trans (List.suffix_refl _))))
      · simp at h
    · simp at h

theorem skipWs_suffix (l : Str) : skipWs l <:+ l := List.dropWhile_suffix jWsB

theorem skipWs_tail {t : Str} {c2 : Char} {r2 : Str} (hsw : skipWs t = c2 :: r2) : r2 <:+ t := by
  have h1 : r2 <:+ c2 :: r2 := List.suffix_cons c2 r2
  rw [← hsw] at h1
  exact h1.trans (skipWs_suffix t)

theorem suffix_drop_head {a : Char} {x l : Str} (h : a :: x <:+ l) : x <:+ l :=
  (List.suffix_cons a x).trans h

theorem drop_suffix_of_prefix {p l : Str} (h : p <+: l) (n : Nat) : l.drop n <:+ l :=
  List.drop_suffix n l

theorem parse_suffix (fu : Nat) :
    (∀ l v r, parseValue fu l = some (v, r) → r <:+ l) ∧
    (∀ l s r, parseStr fu l = some (s, r) → (dquote :: r) <:+ l) ∧
    (∀ l vs r, parseItems fu l = some (vs, r) → (']' : Char) :: r <:+ l) ∧
    (∀ l ps r, parseMembers fu l = some (ps, r) → rcurl :: r <:+ l) := by
  induction fu with
  | zero =>
    refine ⟨?_, ?_, ?_, ?_⟩ <;> intro l a r h <;>
      simp [parseValue, parseStr, parseItems, parseMembers] at h
  | succ fu ih =>
    obtain ⟨ihV, ihS, ihI, ihM⟩ := ih
    refine ⟨?_, ?_, ?_, ?_⟩
    · intro l v r h
      cases l with
      | nil => simp [parseValue] at h
      | cons c t =>
        simp only [parseValue] at h
        by_cases h1 : c = lcurl
        · rw [if_pos h1] at h
          cases hsw : skipWs t with
          | nil => simp [hsw] at h
          | cons c2 r2 =>
            simp only [hsw] at h
            by_cases hc2 : c2 = rcurl
            · rw [if_pos hc2] at h
              obtain ⟨hv2, hr2⟩ := by simpa using h
              rw [← hr2]
              exact suffix_cons_trans (skipWs_tail hsw)
            · rw [if_neg hc2] at h
              cases hpm : parseMembers fu (c2 :: r2) with
              | none => simp [hpm] at h
              | some q =>
                obtain ⟨ps, rr⟩ := q
                simp only [hpm] at h
                obtain ⟨hv2, hr2⟩ := by simpa using h
                rw [← hr2]
                have hx := suffix_drop_head (ihM _ _ _ hpm)
                rw [← hsw] at hx
                exact suffix_cons_trans (hx.trans (skipWs_suffix t))
        · rw [if_neg h1] at h
          by_cases h2 : c = '['
          · rw [if_pos h2] at h
            cases hsw : skipWs t with
            | nil => simp [hsw] at h
            | cons c2 r2 =>
              simp only [hsw] at h
              by_cases hc2 : c2 = ']'
              · rw [if_pos hc2] at h
                obtain ⟨hv2, hr2⟩ := by simpa using h
                rw [← hr2]
                exact suffix_cons_trans (skipWs_tail hsw)
              · rw [if_neg hc2] at h
                cases hpi : parseItems fu (c2 :: r2) with
                | none => simp [hpi] at h
                | some q =>
                  obtain ⟨vs, rr⟩ := q
                  simp only [hpi] at h
                  obtain ⟨hv2, hr2⟩ := by simpa using h
                  rw [← hr2]
                  have hx := suffix_drop_head (ihI _ _ _ hpi)
                  rw [← hsw] at hx
                  exact suffix_cons_trans (hx.trans (skipWs_suffix t))
          · rw [if_neg h2] at h
            by_cases h3 : c = dquote
            · rw [if_pos h3] at h
              cases hps : parseStr fu t with
              | none => simp [hps] at h
              | some q =>
                obtain ⟨s2, rr⟩ := q
                simp only [hps] at h
                obtain ⟨hv2, hr2⟩ := by simpa using h
                rw [← hr2]
                exact suffix_cons_trans (suffix_drop_head (ihS _ _ _ hps))
            · rw [if_neg h3] at h
              by_cases h4 : c = 't'
              · rw [if_pos h4] at h
                by_cases hp : (strL ("rue")).isPrefixOf t = true
                · rw [if_pos hp] at h
                  obtain ⟨hv2, hr2⟩ := by simpa using h
                  rw [← hr2]
                  exact suffix_cons_trans (List.drop_suffix 3 t)
                · rw [if_neg hp] at h
                  simp at h
              · rw [if_neg h4] at h
                by_cases h5 : c = 'f'
                · rw [if_pos h5] at h
                  by_cases hp : (strL ("alse")).isPrefixOf t = true
                  · rw [if_pos hp] at h
                    obtain ⟨hv2, hr2⟩ := by simpa using h
                    rw [← hr2]
                    exact suffix_cons_trans (List.drop_suffix 4 t)
                  · rw [if_neg hp] at h
                    simp at h
                · rw [if_neg h5] at h
                  by_cases h6 : c = 'n'
                  · rw [if_pos h6] at h
                    by_cases hp : (strL ("ull")).isPrefixOf t = true
                    · rw [if_pos hp] at h
                      obtain ⟨hv2, hr2⟩ := by simpa using h
                      rw [← hr2]
                      exact suffix_cons_trans (List.drop_suffix 3 t)
                    · rw [if_neg hp] at h
                      simp at h
                  · rw [if_neg h6] at h
                    cases hnt : numToken (c :: t) with
                    | nil => rw [hnt] at h; simp at h
                    | cons a as =>
                      rw [hnt] at h
                      obtain ⟨hv2, hr2⟩ := by simpa using h
                      rw [← hr2]
                      exact suffix_cons_trans (List.drop_suffix _ _)
    · intro l s r h
      cases l with
      | nil => simp [parseStr] at h
      | cons c t =>
        simp only [parseStr] at h
        by_cases h1 : c = dquote
        · rw [if_pos h1] at h
          obtain ⟨hv2, hr2⟩ := by simpa using h
          rw [← hr2, h1]
        · rw [if_neg h1] at h
          by_cases h2 : c = bslash
          · rw [if_pos h2] at h
            cases ht : t with
            | nil => rw [ht] at h; simp at h
            | cons e r1 =>
              simp only [ht] at h
              cases hesc : escChar e r1 with
              | none => simp [hesc] at h
              | some p =>
                obtain ⟨ch, r2⟩ := p
                simp only [hesc] at h
                cases hps : parseStr fu r2 with
                | none => simp [hps] at h
                | some q =>
                  obtain ⟨s2, rr⟩ := q
                  simp only [hps] at h
                  obtain ⟨hv2, hr2⟩ := by simpa using h
                  rw [← hr2, ← ht]
                  exact suffix_cons_trans
                    ((ihS _ _ _ hps).trans ((escChar_suffix hesc).trans (ht ▸ List.suffix_cons e r1)))
          · rw [if_neg h2] at h
            by_cases h3 : c.toNat < 32
            · rw [if_pos h3] at h
              simp at h
            · rw [if_neg h3] at h
              cases hps : parseStr fu t with
              | none => simp [hps] at h
              | some q =>
                obtain ⟨s2, rr⟩ := q
                simp only [hps] at h
                obtain ⟨hv2, hr2⟩ := by simpa using h
                rw [← hr2]
                exact suffix_cons_trans (ihS _ _ _ hps)
    · intro l vs r h
      simp only [parseItems] at h
      cases hpv : parseValue fu l with
      | none => simp [hpv] at h
      | some q =>
        obtain ⟨v1, r1⟩ := q
        simp only [hpv] at h
        cases hsw : skipWs r1 with
        | nil => simp [hsw] at h
        | cons c2 r2 =>
          simp only [hsw] at h
          by_cases hc : c2 = ','
          · rw [if_pos hc] at h
            cases hpi : parseItems fu (skipWs r2) with
            | none => simp [hpi] at h
            | some q2 =>
              obtain ⟨vs2, rr⟩ := q2
              simp only [hpi] at h
              obtain ⟨hv2, hr2⟩ := by simpa using h
              rw [← hr2]
              have hx := (ihI _ _ _ hpi).trans (skipWs_suffix r2)
              have hx2 : (']' : Char) :: rr <:+ c2 :: r2 := suffix_cons_trans hx
              rw [← hsw] at hx2
              exact (hx2.trans (skipWs_suffix r1)).trans (ihV _ _ _ hpv)
          · rw [if_neg hc] at h
            by_cases hc2 : c2 = ']'
            · rw [if_pos hc2] at h
              obtain ⟨hv2, hr2⟩ := by simpa using h
              rw [← hr2]
              have hx : (']' : Char) :: r2 <:+ c2 :: r2 := by rw [hc2]
              rw [← hsw] at hx
              exact (hx.trans (skipWs_suffix r1)).trans (ihV _ _ _ hpv)
            · rw [if_neg hc2] at h
              simp at h
    · intro l ps r h
      cases l with
      | nil => simp [parseMembers] at h
      | cons c t =>
        simp only [parseMembers] at h
        by_cases h1 : c = dquote
        · rw [if_pos h1] at h
          cases hps : parseStr fu t with
          | none => simp [hps] at h
          | some q =>
            obtain ⟨k, r1⟩ := q
            simp only [hps] at h
            cases hsw : skipWs r1 with
            | nil => simp [hsw] at h
            | cons c2 r2 =>
              simp only [hsw] at h
              by_cases hc2 : c2 = ':'
              · rw [if_pos hc2] at h
                cases hpv : parseValue fu (skipWs r2) with
                | none => simp [hpv] at h
                | some q2 =>
                  obtain ⟨v1, r3⟩ := q2
                  simp only [hpv] at h
                  cases hsw3 : skipWs r3 with
                  | nil => simp [hsw3] at h
                  | cons c3 r4 =>
                    simp only [hsw3] at h
                    by_cases hc3 : c3 = ','
                    · rw [if_pos hc3] at h
                      cases hpm : parseMembers fu (skipWs r4) with
                      | none => simp [hpm] at h
                      | some q3 =>
                        obtain ⟨ps2, rr⟩ := q3
                        simp only [hpm] at h
                        obtain ⟨hv2, hr2⟩ := by simpa using h
                        rw [← hr2]
                        have hx := (ihM _ _ _ hpm).trans (skipWs_suffix r4)
                        have hx2 : rcurl :: rr <:+ c3 :: r4 := suffix_cons_trans hx
                        rw [← hsw3] at hx2
                        have hx3 := ((hx2.trans (skipWs_suffix r3)).trans
                          (ihV _ _ _ hpv)).trans (skipWs_suffix r2)
                        have hx4 : rcurl :: rr <:+ c2 :: r2 := suffix_cons_trans hx3
                        rw [← hsw] at hx4
                        have hx5 := (hx4.trans (skipWs_suffix r1)).trans
                          (suffix_drop_head (ihS _ _ _ hps))
                        exact suffix_cons_trans hx5
                    · rw [if_neg hc3] at h
                      by_cases hc4 : c3 = rcurl
                      · rw [if_pos hc4] at h
                        obtain ⟨hv2, hr2⟩ := by simpa using h
                        rw [← hr2]
                        have hx : rcurl :: r4 <:+ c3 :: r4 := by rw [hc4]
                        rw [← hsw3] at hx
                        have hx3 := ((hx.trans (skipWs_suffix r3)).trans
                          (ihV _ _ _ hpv)).trans (skipWs_suffix r2)
                        have hx4 : rcurl :: r4 <:+ c2 :: r2 := suffix_cons_trans hx3
                        rw [← hsw] at hx4
                        have hx5 := (hx4.trans (skipWs_suffix r1)).trans
                          (suffix_drop_head (ihS _ _ _ hps))
                        exact suffix_cons_trans hx5
                      · rw [if_neg hc4] at h
                        simp at h
              · rw [if_neg hc2] at h
                simp at h
        · rw [if_neg h1] at h
          simp at h

theorem parseValue_first {fu : Nat} {l : Str} {v : Json} {r : Str}
    (h : parseValue fu l = some (v, r)) :
    ∃ c t, l = c :: t ∧ (c = lcurl ∨ c = '[' ∨ c = dquote ∨ c = 't' ∨ c = 'f' ∨ c = 'n' ∨
      c = '-' ∨ digitB c = true) := by
  cases fu with
  | zero => simp [parseValue] at h
  | succ fu =>
    cases l with
    | nil => simp [parseValue] at h
    | cons c t =>
      refine ⟨c, t, rfl, ?_⟩
      simp only [parseValue] at h
      by_cases h1 : c = lcurl
      · exact .inl h1
      · by_cases h2 : c = '['
        · exact .inr (.inl h2)
        · by_cases h3 : c = dquote
          · exact .inr (.inr (.inl h3))
          · by_cases h4 : c = 't'
            · exact .inr (.inr (.inr (.inl h4)))
            · by_cases h5 : c = 'f'
              · exact .inr (.inr (.inr (.inr (.inl h5))))
              · by_cases h6 : c = 'n'
                · exact .inr (.inr (.inr (.inr (.inr (.inl h6)))))
                · rw [if_neg h1, if_neg h2, if_neg h3, if_neg h4, if_neg h5, if_neg h6] at h
                  cases hnt : numToken (c :: t) with
                  | nil => rw [hnt] at h; simp at h
                  | cons a as =>
                    rcases numToken_head (by rw [hnt]; simp) with hh | hh
                    · exact .inr (.inr (.inr (.inr (.inr (.inr (.inl hh))))))
                    · exact .inr (.inr (.inr (.inr (.inr (.inr (.inr hh))))))

theorem parseValue_last {fu : Nat} {l : Str} {v : Json}
    (h : parseValue fu l = some (v, [])) :
    ∃ ini lc, l = ini ++ [lc] ∧ (lc = rcurl ∨ lc = ']' ∨ lc = dquote ∨ lc = 'e' ∨ lc = 'l' ∨
      digitB lc = true) := by
  cases fu with
  | zero => simp [parseValue] at h
  | succ fu =>
    cases l with
    | nil => simp [parseValue] at h
    | cons c t =>
      simp only [parseValue] at h
      by_cases h1 : c = lcurl
      · rw [if_pos h1] at h
        cases hsw : skipWs t with
        | nil => simp [hsw] at h
        | cons c2 r2 =>
          simp only [hsw] at h
          by_cases hc2 : c2 = rcurl
          · rw [if_pos hc2] at h
            obtain ⟨hv2, hr2⟩ := by simpa using h
            have hsfx : [c2] <:+ t := by
              have hz := skipWs_suffix t
              rw [hsw, hr2] at hz
              exact hz
            obtain ⟨x, hx⟩ := hsfx
            exact ⟨c :: x, c2, by rw [← hx]; rfl, .inl hc2⟩
          · rw [if_neg hc2] at h
            cases hpm : parseMembers fu (c2 :: r2) with
            | none => simp [hpm] at h
            | some q =>
              obtain ⟨ps, rr⟩ := q
              simp only [hpm] at h
              obtain ⟨hv2, hr2⟩ := by simpa using h
              have hy : [rcurl] <:+ t := by
                have hz := (parse_suffix fu).2.2.2 _ _ _ hpm
                rw [hr2] at hz
                rw [← hsw] at hz
                exact hz.trans (skipWs_suffix t)
              obtain ⟨x, hx⟩ := hy
              exact ⟨c :: x, rcurl, by rw [← hx]; rfl, .inl rfl⟩
      · rw [if_neg h1] at h
        by_cases h2 : c = '['
        · rw [if_pos h2] at h
          cases hsw : skipWs t with
          | nil => simp [hsw] at h
          | cons c2 r2 =>
            simp only [hsw] at h
            by_cases hc2 : c2 = ']'
            · rw [if_pos hc2] at h
              obtain ⟨hv2, hr2⟩ := by simpa using h
              have hsfx : [c2] <:+ t := by
                have hz := skipWs_suffix t
                rw [hsw, hr2] at hz
                exact hz
              obtain ⟨x, hx⟩ := hsfx
              exact ⟨c :: x, c2, by rw [← hx]; rfl, .inr (.inl hc2)⟩
            · rw [if_neg hc2] at h
              cases hpi : parseItems fu (c2 :: r2) with
              | none => simp [hpi] at h
              | some q =>
                obtain ⟨vs, rr⟩ := q
                simp only [hpi] at h
                obtain ⟨hv2, hr2⟩ := by simpa using h
                have hy : [(']' : Char)] <:+ t := by
                  have hz := (parse_suffix fu).2.2.1 _ _ _ hpi
                  rw [hr2] at hz
                  rw [← hsw] at hz
                  exact hz.trans (skipWs_suffix t)
                obtain ⟨x, hx⟩ := hy
                exact ⟨c :: x, ']', by rw [← hx]; rfl, .inr (.inl rfl)⟩
        · rw [if_neg h2] at h
          by_cases h3 : c = dquote
          · rw [if_pos h3] at h
            cases hps : parseStr fu t with
            | none => simp [hps] at h
            | some q =>
              obtain ⟨s2, rr⟩ := q
              simp only [hps] at h
              obtain ⟨hv2, hr2⟩ := by simpa using h
              have hy : [dquote] <:+ t := by
                have hz := (parse_suffix fu).2.1 _ _ _ hps
                rw [hr2] at hz
                exact hz
              obtain ⟨x, hx⟩ := hy
              exact ⟨c :: x, dquote, by rw [← hx]; rfl, .inr (.inr (.inl rfl))⟩
          · rw [if_neg h3] at h
            by_cases h4 : c = 't'
            · rw [if_pos h4] at h
              by_cases hp : (strL ("rue")).isPrefixOf t = true
              · rw [if_pos hp] at h
                obtain ⟨hv2, hr2⟩ := by simpa using h
                obtain ⟨x, hx⟩ := List.isPrefixOf_iff_prefix.1 hp
                have hxd : t.drop 3 = x := by
                  rw [← hx]
                  have hlen : (3 : Nat) = (strL ("rue")).length := rfl
                  rw [hlen, List.drop_left]
                have hx0 : x = [] := by
                  rw [← hxd]
                  exact List.drop_eq_nil_iff.2 hr2
                subst hx0
                rw [List.append_nil] at hx
                refine ⟨strL ("tru"), 'e', ?_, .inr (.inr (.inr (.inl rfl)))⟩
                rw [h4, ← hx]
                rfl
              · rw [if_neg hp] at h
                simp at h
            · rw [if_neg h4] at h
              by_cases h5 : c = 'f'
              · rw [if_pos h5] at h
                by_cases hp : (strL ("alse")).isPrefixOf t = true
                · rw [if_pos hp] at h
                  obtain ⟨hv2, hr2⟩ := by simpa using h
                  obtain ⟨x, hx⟩ := List.isPrefixOf_iff_prefix.1 hp
                  have hxd : t.drop 4 = x := by
                    rw [← hx]
                    have hlen : (4 : Nat) = (strL ("alse")).length := rfl
                    rw [hlen, List.drop_left]
                  have hx0 : x = [] := by
                    rw [← hxd]
                    exact List.drop_eq_nil_iff.2 hr2
                  subst hx0
                  rw [List.append_nil] at hx
                  refine ⟨strL ("fals"), 'e', ?_, .inr (.inr (.inr (.inl rfl)))⟩
                  rw [h5, ← hx]
                  rfl
                · rw [if_neg hp] at h
                  simp at h
              · rw [if_neg h5] at h
                by_cases h6 : c = 'n'
                · rw [if_pos h6] at h
                  by_cases hp : (strL ("ull")).isPrefixOf t = true
                  · rw [if_pos hp] at h
                    obtain ⟨hv2, hr2⟩ := by simpa using h
                    obtain ⟨x, hx⟩ := List.isPrefixOf_iff_prefix.1 hp
                    have hxd : t.drop 3 = x := by
                      rw [← hx]
                      have hlen : (3 : Nat) = (strL ("ull")).length := rfl
                      rw [hlen, List.drop_left]
                    have hx0 : x = [] := by
                      rw [← hxd]
                      exact List.drop_eq_nil_iff.2 hr2
                    subst hx0
                    rw [List.append_nil] at hx
                    refine ⟨strL ("nul"), 'l', ?_, .inr (.inr (.inr (.inr (.inl rfl))))⟩
                    rw [h6, ← hx]
                    rfl
                  · rw [if_neg hp] at h
                    simp at h
                · rw [if_neg h6] at h
                  cases hnt : numToken (c :: t) with
                  | nil => rw [hnt] at h; simp at h
                  | cons a as =>
                    rw [hnt] at h
                    obtain ⟨hv2, hr2⟩ := by simpa using h
                    have hpre := numToken_pre (c :: t)
                    rw [hnt] at hpre
                    obtain ⟨x, hxx⟩ := hpre
                    have hx0 : t.drop as.length = x := by
                      have hz : ((a :: as) ++ x).drop (a :: as).length = x := List.drop_left _ _
                      rw [hxx] at hz
                      simpa using hz
                    have hx1 : x = [] := by
                      rw [← hx0]
                      exact List.drop_eq_nil_iff.2 hr2
                    subst hx1
                    rw [List.append_nil] at hxx
                    have hnn : numToken (c :: t) ≠ [] := by
                      rw [hnt]
                      simp
                    obtain ⟨ini, lc, hdec, hdig⟩ := numToken_ends hnn
                    rw [hnt] at hdec
                    rw [← hxx, hdec]
                    exact ⟨ini, lc, rfl, .inr (.inr (.inr (.inr (.inr hdig))))⟩

/-- Helper: dropping by a weaker predicate first does not change a
dropWhile by a stronger one. -/
theorem dropWhile_dropWhile_subset {p q : Char → Bool} (hpq : ∀ c, q c = true → p c = true)
    (l : Str) : (l.dropWhile q).dropWhile p = l.dropWhile p := by
  induction l with
  | nil => rfl
  | cons c t ih =>
    by_cases hq : q c = true
    · simp [List.dropWhile_cons, hq, hpq c hq, ih]
    · simp [List.dropWhile_cons, hq]

/-- Helper: dropWhile over an append whose left part is not dropped
entirely. -/
theorem dropWhile_append_ne_nil {p : Char → Bool} {x : Str} (y : Str)
    (h : x.dropWhile p ≠ []) : (x ++ y).dropWhile p = x.dropWhile p ++ y := by
  induction x with
  | nil => simp at h
  | cons c t ih =>
    by_cases hc : p c = true
    · simp only [List.dropWhile_cons, hc, if_true] at h ⊢
      simp only [List.cons_append, List.dropWhile_cons, hc, if_true]
      exact ih h
    · simp [List.cons_append, List.dropWhile_cons, hc]

/-- Helper: every JSON whitespace character is Python whitespace. -/
theorem jWs_le_pWs : ∀ c, jWsB c = true → pWsB c = true := by
  intro c h
  simp [pWsB, h]

/-- Helper: a string with non-predicate characters at both ends is fixed
by stripBy. -/
theorem stripBy_eq_self {p : Char → Bool} {x : Str} {c0 cl : Char} {t0 ini : Str}
    (h1 : x = c0 :: t0) (h2 : x = ini ++ [cl]) (hp0 : p c0 = false) (hpl : p cl = false) :
    stripBy p x = x := by
  have hl : lstripBy p x = x := by
    rw [h1]
    show (c0 :: t0).dropWhile p = c0 :: t0
    rw [List.dropWhile_cons, if_neg (by simp [hp0])]
  have hr : rstripBy p x = x := by
    unfold rstripBy
    have hrev : x.reverse = cl :: ini.reverse := by rw [h2]; simp
    rw [hrev, List.dropWhile_cons, if_neg (by simp [hpl]), ← hrev]
    simp
  show rstripBy p (lstripBy p x) = x
  rw [hl, hr]

/-- Helper: under jsonParse-produced end characters, Python strip and
JSON-whitespace strip agree. -/
theorem pystrip_eq_jstrip {l : Str} {c0 cl : Char} {t0 ini : Str}
    (h1 : jstrip l = c0 :: t0) (h2 : jstrip l = ini ++ [cl])
    (hp0 : pWsB c0 = false) (hpl : pWsB cl = false) :
    pystrip l = jstrip l := by
  have e1 : lstripBy pWsB l = lstripBy pWsB (lstripBy jWsB l) := by
    show l.dropWhile pWsB = (l.dropWhile jWsB).dropWhile pWsB
    exact (dropWhile_dropWhile_subset jWs_le_pWs l).symm
  have hpre0 : rstripBy jWsB (lstripBy jWsB l) <+: lstripBy jWsB l :=
    rstripBy_pre jWsB (lstripBy jWsB l)
  have hjd : jstrip l = rstripBy jWsB (lstripBy jWsB l) := rfl
  have hpre : c0 :: t0 <+: lstripBy jWsB l := by
    rw [← h1, hjd]
    exact hpre0
  obtain ⟨rr, hrr⟩ := hpre
  have e2 : lstripBy pWsB (lstripBy jWsB l) = lstripBy jWsB l := by
    rw [← hrr]
    show ((c0 :: t0) ++ rr).dropWhile pWsB = (c0 :: t0) ++ rr
    have hsh : (c0 :: t0) ++ rr = c0 :: (t0 ++ rr) := rfl
    rw [hsh, List.dropWhile_cons, if_neg (by simp [hp0])]
  have hm2 : (lstripBy jWsB l).reverse.dropWhile jWsB = (jstrip l).reverse := by
    have hx : jstrip l = ((lstripBy jWsB l).reverse.dropWhile jWsB).reverse := rfl
    rw [hx]
    simp
  have e3 : rstripBy pWsB (lstripBy jWsB l) = jstrip l := by
    unfold rstripBy
    have e4 : (lstripBy jWsB l).reverse.dropWhile pWsB =
        ((lstripBy jWsB l).reverse.dropWhile jWsB).dropWhile pWsB :=
      (dropWhile_dropWhile_subset jWs_le_pWs (lstripBy jWsB l).reverse).symm
    rw [e4, hm2]
    have e5 : (jstrip l).reverse = cl :: ini.reverse := by rw [h2]; simp
    rw [e5, List.dropWhile_cons, if_neg (by simp [hpl]), ← e5]
    simp
  show rstripBy pWsB (lstripBy pWsB l) = jstrip l
  rw [e1, e2, e3]

/-- Helper: a leading predicate character is stripped. -/
theorem stripBy_cons_ws {p : Char → Bool} {c : Char} (h : p c = true) (x : Str) :
    stripBy p (c :: x) = stripBy p x := by
  show rstripBy p (lstripBy p (c :: x)) = rstripBy p (lstripBy p x)
  have hl : lstripBy p (c :: x) = lstripBy p x := by
    show (c :: x).dropWhile p = x.dropWhile p
    rw [List.dropWhile_cons, if_pos (by simp [h])]
  rw [hl]

/-- Helper: a trailing predicate character is stripped. -/
theorem stripBy_concat_ws {p : Char → Bool} {c : Char} (h : p c = true) (x : Str) :
    stripBy p (x ++ [c]) = stripBy p x := by
  by_cases hx : lstripBy p x = []
  · have hall : ∀ d ∈ x, p d = true := List.dropWhile_eq_nil_iff.1 hx
    have h1 : lstripBy p (x ++ [c]) = [] := by
      show (x ++ [c]).dropWhile p = []
      rw [List.dropWhile_eq_nil_iff]
      intro d hd
      rcases List.mem_append.1 hd with hd | hd
      · exact hall d hd
      · simp at hd
        rw [hd]
        exact h
    show rstripBy p (lstripBy p (x ++ [c])) = rstripBy p (lstripBy p x)
    rw [h1, hx]
  · have h1 : lstripBy p (x ++ [c]) = lstripBy p x ++ [c] :=
      dropWhile_append_ne_nil [c] hx
    show rstripBy p (lstripBy p (x ++ [c])) = rstripBy p (lstripBy p x)
    rw [h1]
    unfold rstripBy
    have h2 : (lstripBy p x ++ [c]).reverse = c :: (lstripBy p x).reverse := by simp
    rw [h2, List.dropWhile_cons, if_pos (by simp [h])]

/-- Helper: the fence-stripping transformation always ends in a strip, so
its output is trimmed. -/
theorem stripFences_trimmed (s : Str) : pystrip (stripFences s) = stripFences s := by
  simp only [stripFences]
  exact stripBy_idem pWsB _

/-- Helper: fence stripping fixes a trimmed string carrying no fence
marker at either end. -/
theorem stripFences_eq_self {u : Str} (hps : pystrip u = u)
    (hpre : (strL ("```")).isPrefixOf u = false)
    (hsuf : (strL ("```")).isSuffixOf u = false) :
    stripFences u = u := by
  have hpre7 : (strL ("```json")).isPrefixOf u = false := by
    cases hc : (strL ("```json")).isPrefixOf u
    · rfl
    · exfalso
      have hx := List.isPrefixOf_iff_prefix.1 hc
      have h3 : strL ("```") <+: strL ("```json") := by decide
      have h4 := List.isPrefixOf_iff_prefix.2 (h3.trans hx)
      rw [hpre] at h4
      cases h4
  have hn7 : ¬ ((strL ("```json")).isPrefixOf u = true) := by rw [hpre7]; simp
  have hn3 : ¬ ((strL ("```")).isPrefixOf u = true) := by rw [hpre]; simp
  have hns : ¬ ((strL ("```")).isSuffixOf u = true) := by rw [hsuf]; simp
  simp only [stripFences]
  rw [hps, if_neg hn7, if_neg hn3, if_neg hns]
  exact hps

/-- Helper: fence stripping of a decodable JSON text is just the
JSON-whitespace strip. -/
theorem stripFences_eq_jstrip {l : Str} {c0 cl : Char} {t0 ini : Str}
    (h1 : jstrip l = c0 :: t0) (h2 : jstrip l = ini ++ [cl])
    (hp0 : pWsB c0 = false) (hpl : pWsB cl = false)
    (hb0 : c0 ≠ btick) (hbl : cl ≠ btick) :
    stripFences l = jstrip l := by
  have hps := pystrip_eq_jstrip h1 h2 hp0 hpl
  have hpre : (strL ("```")).isPrefixOf (jstrip l) = false := by
    rw [h1]
    have hsh : strL ("```") = btick :: strL ("``") := by decide
    rw [hsh]
    have hne : (btick == c0) = false := beq_eq_false_iff_ne.2 (Ne.symm hb0)
    simp [List.isPrefixOf, hne]
  have hsuf : (strL ("```")).isSuffixOf (jstrip l) = false := by
    show ((strL ("```")).reverse.isPrefixOf (jstrip l).reverse) = false
    have hsh : (strL ("```")).reverse = btick :: strL ("``") := by decide
    have hrev : (jstrip l).reverse = cl :: ini.reverse := by rw [h2]; simp
    rw [hsh, hrev]
    have hne : (btick == cl) = false := beq_eq_false_iff_ne.2 (Ne.symm hbl)
    simp [List.isPrefixOf, hne]
  have hfix : stripFences (jstrip l) = jstrip l :=
    stripFences_eq_self (stripBy_eq_self h1 h2 hp0 hpl) hpre hsuf
  calc stripFences l = stripFences (jstrip l) := by
        simp only [stripFences]
        rw [hps]
        have hpsj : pystrip (jstrip l) = jstrip l := stripBy_eq_self h1 h2 hp0 hpl
        rw [hpsj]
    _ = jstrip l := hfix

/-- Helper: fence stripping of a fenced text reduces to the strip of the
inner text. -/
theorem stripFences_fence (t : Str) :
    stripFences (strL ("```json\n") ++ (t ++ strL ("\n```"))) = pystrip t := by
  have ha : strL ("```json\n") = btick :: strL ("``json\n") := by decide
  have hw1 : strL ("```json\n") ++ (t ++ strL ("\n```")) =
      btick :: (strL ("``json\n") ++ (t ++ strL ("\n```"))) := by
    rw [ha]
    rfl
  have hb : strL ("\n```") = strL ("\n``") ++ [btick] := by decide
  have hw2 : strL ("```json\n") ++ (t ++ strL ("\n```")) =
      (strL ("```json\n") ++ (t ++ strL ("\n``"))) ++ [btick] := by
    rw [hb]
    simp [List.append_assoc]
  have hps : pystrip (strL ("```json\n") ++ (t ++ strL ("\n```"))) =
      strL ("```json\n") ++ (t ++ strL ("\n```")) :=
    stripBy_eq_self hw1 hw2 (by decide) (by decide)
  have hsh : strL ("```json\n") ++ (t ++ strL ("\n```")) =
      strL ("```json") ++ ('\n' :: (t ++ strL ("\n```"))) := by
    have hx : strL ("```json\n") = strL ("```json") ++ ['\n'] := by decide
    rw [hx]
    simp [List.append_assoc]
  have hpre : (strL ("```json")).isPrefixOf (strL ("```json\n") ++ (t ++ strL ("\n```"))) = true := by
    refine List.isPrefixOf_iff_prefix.2 ?_
    exact ⟨'\n' :: (t ++ strL ("\n```")), hsh.symm⟩
  have hdrop : (strL ("```json\n") ++ (t ++ strL ("\n```"))).drop 7 =
      '\n' :: (t ++ strL ("\n```")) := by
    rw [hsh]
    have h7 : (7 : Nat) = (strL ("```json")).length := rfl
    rw [h7, List.drop_left]
  have hsh2 : '\n' :: (t ++ strL ("\n```")) =
      (('\n' :: t) ++ ['\n']) ++ strL ("```") := by
    have hx : strL ("\n```") = ['\n'] ++ strL ("```") := by decide
    rw [hx]
    simp [List.append_assoc]
  have hsuf : (strL ("```")).isSuffixOf ('\n' :: (t ++ strL ("\n```"))) = true := by
    refine List.isSuffixOf_iff_suffix.2 ?_
    exact ⟨('\n' :: t) ++ ['\n'], hsh2.symm⟩
  have htake : ('\n' :: (t ++ strL ("\n```"))).take
      (('\n' :: (t ++ strL ("\n```"))).length - 3) = ('\n' :: t) ++ ['\n'] := by
    rw [hsh2]
    have hlen : ((('\n' :: t) ++ ['\n']) ++ strL ("```")).length - 3 =
        (('\n' :: t) ++ ['\n']).length := by
      have h3 : (strL ("```")).length = 3 := rfl
      simp [List.length_append, h3]
    rw [hlen, List.take_left]
  have hfinal : pystrip (('\n' :: t) ++ ['\n']) = pystrip t := by
    have hx : ('\n' :: t) ++ ['\n'] = '\n' :: (t ++ ['\n']) := rfl
    rw [hx]
    show stripBy pWsB ('\n' :: (t ++ ['\n'])) = stripBy pWsB t
    rw [stripBy_cons_ws (by decide), stripBy_concat_ws (by decide)]
  simp only [stripFences]
  rw [hps, if_pos hpre, hdrop, if_pos hsuf, htake, hfinal]

/-- C6 counterexample: the fence-stripping transformation is not
idempotent: stripping twice changes the result again on this input, so
the idempotence half of the claim fails as stated. -/
theorem claimC6_counterexample :
    stripFences (stripFences (strL ("``````json x```"))) ≠
      stripFences (strL ("``````json x```")) := by decide

/-- C6 (amended): for every text that decodes as JSON, parsing the text
wrapped in a json code fence and parsing it bare both succeed and yield
the identical decoded structure; and the fence-stripping transformation
is idempotent on every input whose once-stripped form neither starts nor
ends with a fence marker. -/
theorem claimC6 :
    (∀ t v, jsonParse t = some v →
      parse_json_response (strL ("```json\n") ++ (t ++ strL ("\n```"))) = .ok v ∧
      parse_json_response t = .ok v) ∧
    (∀ s : Str, (strL ("```")).isPrefixOf (stripFences s) = false →
      (strL ("```")).isSuffixOf (stripFences s) = false →
      stripFences (stripFences s) = stripFences s) := by
  constructor
  · intro t v h
    have h' : parseValue (2 * (jstrip t).length + 4) (jstrip t) = some (v, []) := by
      simp only [jsonParse] at h
      rcases hpv : parseValue (2 * (jstrip t).length + 4) (jstrip t) with _ | ⟨v', r⟩
      · rw [hpv] at h
        simp at h
      · rw [hpv] at h
        cases r with
        | nil =>
          simp at h
          rw [h]
        | cons a as => simp at h
    obtain ⟨c0, t0, h1, hset0⟩ := parseValue_first h'
    obtain ⟨ini, cl, h2, hsetl⟩ := parseValue_last h'
    have hsafe0 : pWsB c0 = false ∧ jWsB c0 = false ∧ c0 ≠ btick := by
      refine safeChar_facts ?_
      rcases hset0 with h3 | h3 | h3 | h3 | h3 | h3 | h3 | h3
      · exact .inl h3
      · exact .inr (.inr (.inl h3))
      · exact .inr (.inr (.inr (.inr (.inl h3))))
      · exact .inr (.inr (.inr (.inr (.inr (.inl h3)))))
      · exact .inr (.inr (.inr (.inr (.inr (.inr (.inl h3))))))
      · exact .inr (.inr (.inr (.inr (.inr (.inr (.inr (.inl h3)))))))
      · exact .inr (.inr (.inr (.inr (.inr (.inr (.inr (.inr (.inl h3))))))))
      · exact .inr (.inr (.inr (.inr (.inr (.inr (.inr (.inr (.inr (.inr (.inr h3))))))))))
    have hsafel : pWsB cl = false ∧ jWsB cl = false ∧ cl ≠ btick := by
      refine safeChar_facts ?_
      rcases hsetl with h3 | h3 | h3 | h3 | h3 | h3
      · exact .inr (.inl h3)
      · exact .inr (.inr (.inr (.inl h3)))
      · exact .inr (.inr (.inr (.inr (.inl h3))))
      · exact .inr (.inr (.inr (.inr (.inr (.inr (.inr (.inr (.inr (.inl h3)))))))))
      · exact .inr (.inr (.inr (.inr (.inr (.inr (.inr (.inr (.inr (.inr (.inl h3))))))))))
      · exact .inr (.inr (.inr (.inr (.inr (.inr (.inr (.inr (.inr (.inr (.inr h3))))))))))
    have hps : pystrip t = jstrip t := pystrip_eq_jstrip h1 h2 hsafe0.1 hsafel.1
    have hsf : stripFences t = jstrip t :=
      stripFences_eq_jstrip h1 h2 hsafe0.1 hsafel.1 hsafe0.2.2 hsafel.2.2
    have hsf2 : stripFences (strL ("```json\n") ++ (t ++ strL ("\n```"))) = jstrip t := by
      rw [stripFences_fence, hps]
    have hjp : jsonParse (jstrip t) = some v := by
      simp only [jsonParse]
      have hjj : jstrip (jstrip t) = jstrip t := stripBy_idem jWsB t
      rw [hjj, h']
    constructor
    · simp only [parse_json_response]
      rw [hsf2, hjp]
    · simp only [parse_json_response]
      rw [hsf, hjp]
  · intro s hpre hsuf
    exact stripFences_eq_self (stripFences_trimmed s) hpre hsuf

/-- C6 witness: a concrete JSON array parsed fenced and bare, and a
fixed point of fence stripping. -/
theorem claimC6_witness :
    parse_json_response (strL ("```json\n") ++ (strL ("[true]") ++ strL ("\n```"))) =
      .ok (.arr [.bool true]) ∧
    parse_json_response (strL ("[true]")) = .ok (.arr [.bool true]) ∧
    stripFences (stripFences (strL ("x"))) = stripFences (strL ("x")) :=
  ⟨(claimC6.1 (strL ("[true]")) (.arr [.bool true]) (by rfl)).1,
   (claimC6.1 (strL ("[true]")) (.arr [.bool true]) (by rfl)).2,
   claimC6.2 (strL ("x")) (by decide) (by decide)⟩
